import Mathlib

/-!
# nicdns: request / authentication / response pipeline

A shallow embedding of `nicdns.go` (package `nicdns`, a client of the nic.ru DNS API).

Conventions of the embedding

* A Go `error` is `Option String` (its message); `nil` is `none`.
* Byte slices and strings are both `String`; `string(b)` is the identity.
* `time.Time` is an integer count of nanoseconds on one clock, `time.Duration` a
  signed 64-bit count of nanoseconds (`wrap64` where Go multiplies).
* Pointers are passed by value and the updated value is returned: `*DNSManager` is
  threaded through every method, the `respStruct` target is returned in the result.
* Everything outside the package is an explicit input, gathered in `Env`: the clock,
  the HTTP transport, the file system calls and the `encoding/json` / `encoding/xml`
  codecs of the response shapes. `encoding/xml` for the two shapes whose decoding is
  specified (`APIResponseError`, `APIResponseZoneRevisions`) is modelled on the parsed
  element tree of the document, following the struct tags of the Go types.
* `World` is the mutable outside: the files, the number of clock readings so far, and
  a ghost log of `Login` calls and of requests handed to `client.Do`.
* `m.Debug` only prints to standard output; the printing is not modelled.
-/

set_option autoImplicit false

namespace Nicdns

deriving instance DecidableEq for Except

/-! ## Constants -/

def DEF_AUTH_FILE : String := "nicdns_auth.json"

def HOST : String := "https://api.nic.ru"
def AUTH_ENTRY : String := "/oauth/token"
def API_ENTRY : String := "/dns-master"

def METH_TTL : String := "/default-ttl"
def METH_ROLLBACK : String := "/rollback"
def METH_COMMIT : String := "/commit"
def METH_REVIS : String := "/revisions"
def METH_REC : String := "/records"

def CONTENT_TYPE_JSON : String := "application/json"
def CONTENT_TYPE_XML : String := "text/xml"
def CONTENT_TYPE_TXT : String := "text/plain"

def XML_HEADER : String := "<?xml version=\"1.0\" encoding=\"UTF-8\" ?>"

/-- The three request content types (`requestType`, an `iota` enumeration). -/
inductive requestType where
  | REQUEST_CT_FORM
  | REQUEST_CT_TEXT
  | REQUEST_CT_XML
  deriving DecidableEq, Repr

/-! ## Library functions used by the package -/

/-- Search of `strings.Index`: position of the first occurrence of `sub` in the
remaining text, counting from `i`, or `-1`. -/
def stringsIndexFrom (sub : List Char) : List Char → Nat → Int
  | [], i => if sub.isPrefixOf [] then (i : Int) else -1
  | c :: cs, i => if sub.isPrefixOf (c :: cs) then (i : Int) else stringsIndexFrom sub cs (i + 1)

/-- Go `strings.Index(s, sub)`; the package only tests the result against `0`. -/
def stringsIndex (s sub : String) : Int := stringsIndexFrom sub.data s.data 0

/-- Go `%d` of an integer. -/
def fmtInt (n : Int) : String := toString n

abbrev Time := Int
abbrev Duration := Int

/-- Two's complement wrap of a 64-bit signed integer operation. -/
def wrap64 (x : Int) : Int := (x + 9223372036854775808) % 18446744073709551616 - 9223372036854775808

/-- Go `time.Second`, in nanoseconds. -/
def Second : Duration := 1000000000

/-- Go `time.Duration(n) * time.Second`. -/
def secondsDuration (n : Int) : Duration := wrap64 (n * Second)

/-- Go `t.Add(d)`. -/
def Time.Add (t : Time) (d : Duration) : Time := t + d

/-- Go `t.Before(u)`: strictly earlier. -/
def Time.Before (t u : Time) : Bool := decide (t < u)

/-- Go `url.Values`, restricted to `Set` and `Get` on single values. -/
abbrev Values := List (String × String)

/-- Go `v.Set(key, value)`: replaces the value of `key`, or adds the key. -/
def Values.Set : Values → String → String → Values
  | [], k, v => [(k, v)]
  | (k0, v0) :: rest, k, v => if k0 = k then (k, v) :: rest else (k0, v0) :: Values.Set rest k v

/-- Go `v.Get(key)`: the value of `key`, or the empty string. -/
def Values.Get : Values → String → String
  | [], _ => ""
  | (k0, v0) :: rest, k => if k0 = k then v0 else Values.Get rest k

/-! ## Data model -/

/-- API JSON error. -/
structure APIResponseErrorJSON where
  Error : String
  deriving DecidableEq, Repr

/-- The `error` element of an XML error entry: character data and `code` attribute. -/
structure APIErrorDetail where
  Descr : String
  Code : String
  deriving DecidableEq, Repr

/-- One entry of `APIResponseError.Errors` (one `errors` element). -/
structure APIErrorEntry where
  Error : APIErrorDetail
  Validator : String
  deriving DecidableEq, Repr

/-- API XML errors. -/
structure APIResponseError where
  XMLName : String
  Status : String
  Errors : List APIErrorEntry
  deriving DecidableEq, Repr

structure APIResponseTTL where
  DefaultTTL : Int
  deriving DecidableEq, Repr

structure DomainZone where
  Admin : String
  Enable : Bool
  HasChanges : Bool
  HasPrimary : Bool
  Id : String
  IdnName : String
  Name : String
  Payer : String
  Service : String
  deriving DecidableEq, Repr

structure APIResponseDomainZones where
  XMLName : String
  Zones : List DomainZone
  deriving DecidableEq, Repr

structure ZoneRevision where
  Date : String
  IP : String
  Number : Int
  deriving DecidableEq, Repr

structure APIResponseZoneRevisions where
  XMLName : String
  Revisions : List ZoneRevision
  deriving DecidableEq, Repr

structure ZoneRecordSOA where
  MName : String × String
  RName : String × String
  Serial : Int
  Refresh : Int
  Retry : Int
  Expire : Int
  Minimum : Int
  deriving DecidableEq, Repr

structure ZoneRecord where
  Id : String
  Name : String
  IdnName : String
  Typ : String
  Ttl : String
  A : String
  Aaaa : String
  Soa : Option ZoneRecordSOA
  Cname : Option String
  Ns : Option String
  Mx : Option (String × String)
  Srv : Option (String × String × String × String)
  Ptr : Option String
  Txt : Option String
  DName : Option String
  HIinfo : Option (String × String)
  deriving DecidableEq, Repr

structure APIResponseZoneRecords where
  XMLName : String
  Records : List ZoneRecord
  deriving DecidableEq, Repr

structure APIRequestZoneRecords where
  Records : List ZoneRecord
  deriving DecidableEq, Repr

/-- Token State: the decoded authentication response plus its issuance time. -/
structure APIResponseAuth where
  AccessToken : String
  ExpiresIn : Int
  RefreshToken : String
  TokenTime : Time
  deriving DecidableEq, Repr

structure DNSManagerAuth where
  AppLogin : String
  AppPwd : String
  ContractLogin : String
  ContractPwd : String
  deriving DecidableEq, Repr

/-- The main object. -/
structure DNSManager where
  APIAuth : APIResponseAuth
  Auth : DNSManagerAuth
  Service : String
  Zone : String
  GrantType : String
  Scope : String
  Debug : Bool
  deriving DecidableEq, Repr

/-! ## Parsed XML documents and `encoding/xml` for the decoded shapes -/

/-- An item of a parsed XML document: an element with its attributes (in document
order) and content, or a run of character data. Comments, processing instructions
and directives, which `xml.Unmarshal` ignores for the types below, are left out. -/
inductive XmlNode where
  | elem (name : String) (attrs : List (String × String)) (children : List XmlNode)
  | text (data : String)

/-- The root element of a parsed document. -/
structure XmlElement where
  name : String
  attrs : List (String × String)
  children : List XmlNode

/-- Character data directly inside an element, concatenated (what `xml.Unmarshal`
stores in a `string` field or a `,chardata` field). -/
def charData : List XmlNode → String
  | [] => ""
  | XmlNode.text d :: rest => d ++ charData rest
  | XmlNode.elem _ _ _ :: rest => charData rest

/-- Go `unicode.IsSpace`. -/
def isSpace (c : Char) : Bool :=
  (9 ≤ c.toNat ∧ c.toNat ≤ 13) ∨ c.toNat = 32 ∨ c.toNat = 133 ∨ c.toNat = 160 ∨ c.toNat = 5760 ∨
  (8192 ≤ c.toNat ∧ c.toNat ≤ 8202) ∨ c.toNat = 8232 ∨ c.toNat = 8233 ∨ c.toNat = 8239 ∨
  c.toNat = 8287 ∨ c.toNat = 12288

/-- Go `strings.TrimSpace`. -/
def TrimSpace (s : List Char) : List Char :=
  ((s.dropWhile isSpace).reverse.dropWhile isSpace).reverse

/-- The two failures of `strconv.ParseInt`: the text is no number (`ErrSyntax`), or
the number does not fit 64 bits (`ErrRange`). -/
inductive NumError where
  | invalid
  | outOfRange
  deriving DecidableEq, Repr

/-- The text of a failure, the end of the message of `(*NumError).Error`. -/
def NumError.text : NumError → String
  | NumError.invalid => "invalid syntax"
  | NumError.outOfRange => "value out of range"

/-- The digit loop of `strconv.ParseUint(s, 10, 64)`, read left to right from the
value `n`: a character that is no decimal digit is a failure where it stands, and so
is the digit that takes the value beyond `2^64 - 1`. -/
def parseUintDigits : List Char → Nat → Except NumError Nat
  | [], n => Except.ok n
  | c :: cs, n =>
    if c.isDigit then
      if n * 10 + (c.toNat - 48) > 18446744073709551615 then Except.error NumError.outOfRange
      else parseUintDigits cs (n * 10 + (c.toNat - 48))
    else Except.error NumError.invalid

/-- Go `strconv.ParseInt(s, 10, 64)`: optional sign, at least one digit, range of `int64`. -/
def ParseInt (s : List Char) : Except NumError Int :=
  match s with
  | [] => Except.error NumError.invalid
  | c :: cs =>
    let body := if c = '+' ∨ c = '-' then cs else c :: cs
    if body.isEmpty then Except.error NumError.invalid
    else
      match parseUintDigits body 0 with
      | Except.error e => Except.error e
      | Except.ok un =>
        if c = '-' then
          (if un > 9223372036854775808 then Except.error NumError.outOfRange
           else Except.ok (-(un : Int)))
        else
          (if un ≥ 9223372036854775808 then Except.error NumError.outOfRange
           else Except.ok (un : Int))

/-- Assignment of attribute or character data to an `int` field by `encoding/xml`
(`copyValue`): empty data is `0`, otherwise `ParseInt` of the trimmed text, whose
error reads `strconv.ParseInt: parsing "..." : ...` with the text quoted by
`strconv.Quote`, taken as the argument `quote`. -/
def copyValueInt (quote : String → String) (src : String) : Except String Int :=
  if src.data.isEmpty then Except.ok 0
  else
    match ParseInt (TrimSpace src.data) with
    | Except.ok n => Except.ok n
    | Except.error e =>
      Except.error ("strconv.ParseInt: parsing " ++ quote (String.mk (TrimSpace src.data)) ++
        ": " ++ e.text)

/-- Attributes of an `error` element assigned to the `Code` field (`xml:"code,attr"`):
every attribute named `code` is stored in turn. -/
def assignCode : List (String × String) → String → String
  | [], code => code
  | (k, v) :: rest, code => assignCode rest (if k = "code" then v else code)

/-- Decoding of an `error` element into the `Error` field, which keeps what an earlier
`error` sibling stored unless it is written again. -/
def unmarshalErrorDetail (attrs : List (String × String)) (children : List XmlNode)
    (prev : APIErrorDetail) : APIErrorDetail :=
  { Descr := charData children, Code := assignCode attrs prev.Code }

/-- Content of an `errors` element decoded into one entry: child `error` goes to
`Error`, child `validator-output` to `Validator`, everything else is skipped. -/
def unmarshalErrorEntry : List XmlNode → APIErrorEntry → APIErrorEntry
  | [], e => e
  | XmlNode.text _ :: rest, e => unmarshalErrorEntry rest e
  | XmlNode.elem name attrs children :: rest, e =>
    if name = "error" then
      unmarshalErrorEntry rest { e with Error := unmarshalErrorDetail attrs children e.Error }
    else if name = "validator-output" then
      unmarshalErrorEntry rest { e with Validator := charData children }
    else unmarshalErrorEntry rest e

/-- Content of the root decoded into `APIResponseError`: child `status` goes to
`Status`, every child `errors` appends one entry to `Errors`. -/
def unmarshalErrorFields : List XmlNode → APIResponseError → APIResponseError
  | [], b => b
  | XmlNode.text _ :: rest, b => unmarshalErrorFields rest b
  | XmlNode.elem name _ children :: rest, b =>
    if name = "status" then unmarshalErrorFields rest { b with Status := charData children }
    else if name = "errors" then
      unmarshalErrorFields rest
        { b with Errors := b.Errors ++ [unmarshalErrorEntry children ⟨⟨"", ""⟩, ""⟩] }
    else unmarshalErrorFields rest b

/-- Go `xml.Unmarshal` into `*APIResponseError`, on the parsed document. The `XMLName`
tag makes any root other than `response` an error. -/
def unmarshalAPIResponseError (root : XmlElement) (b : APIResponseError) :
    Except String APIResponseError :=
  if root.name ≠ "response" then
    Except.error ("expected element type <response> but have <" ++ root.name ++ ">")
  else Except.ok (unmarshalErrorFields root.children { b with XMLName := root.name })

/-- Attributes of a `revision` element assigned to `ZoneRevision` (`date`, `ip`,
`number`), in document order; a `number` that is no integer aborts the decoding. -/
def unmarshalZoneRevision (quote : String → String) :
    List (String × String) → ZoneRevision → Except String ZoneRevision
  | [], r => Except.ok r
  | (k, v) :: rest, r =>
    if k = "date" then unmarshalZoneRevision quote rest { r with Date := v }
    else if k = "ip" then unmarshalZoneRevision quote rest { r with IP := v }
    else if k = "number" then
      match copyValueInt quote v with
      | Except.ok n => unmarshalZoneRevision quote rest { r with Number := n }
      | Except.error e => Except.error e
    else unmarshalZoneRevision quote rest r

/-- Content of a `data` element: every child `revision` appends one `ZoneRevision`. -/
def unmarshalRevisionData (quote : String → String) :
    List XmlNode → List ZoneRevision → Except String (List ZoneRevision)
  | [], revs => Except.ok revs
  | XmlNode.text _ :: rest, revs => unmarshalRevisionData quote rest revs
  | XmlNode.elem name attrs _ :: rest, revs =>
    if name = "revision" then
      match unmarshalZoneRevision quote attrs ⟨"", "", 0⟩ with
      | Except.ok r => unmarshalRevisionData quote rest (revs ++ [r])
      | Except.error e => Except.error e
    else unmarshalRevisionData quote rest revs

/-- Content of the root decoded into `APIResponseZoneRevisions`: every child `data`
is decoded into the `Data` field. -/
def unmarshalRevisionFields (quote : String → String) :
    List XmlNode → APIResponseZoneRevisions → Except String APIResponseZoneRevisions
  | [], v => Except.ok v
  | XmlNode.text _ :: rest, v => unmarshalRevisionFields quote rest v
  | XmlNode.elem name _ children :: rest, v =>
    if name = "data" then
      match unmarshalRevisionData quote children v.Revisions with
      | Except.ok revs => unmarshalRevisionFields quote rest { v with Revisions := revs }
      | Except.error e => Except.error e
    else unmarshalRevisionFields quote rest v

/-- Go `xml.Unmarshal` into `*APIResponseZoneRevisions`, on the parsed document. -/
def unmarshalAPIResponseZoneRevisions (quote : String → String) (root : XmlElement)
    (v : APIResponseZoneRevisions) : Except String APIResponseZoneRevisions :=
  if root.name ≠ "response" then
    Except.error ("expected element type <response> but have <" ++ root.name ++ ">")
  else unmarshalRevisionFields quote root.children { v with XMLName := root.name }

/-- Go `fmt.Sprintf("%s (%s)", t, code)` for one entry of `Errors`, with `t` the
description and, when present, the validator output. -/
def APIErrorEntry.render (err : APIErrorEntry) : String :=
  (if err.Validator ≠ "" then err.Error.Descr ++ ", validator-output: " ++ err.Validator
   else err.Error.Descr) ++ " (" ++ err.Error.Code ++ ")"

/-- The loop of `String`: entry `i` is preceded by `", "` when `i > 0`. -/
def writeErrors : List APIErrorEntry → Nat → String → String
  | [], _, err_s => err_s
  | err :: rest, i, err_s =>
    writeErrors rest (i + 1) ((if i > 0 then err_s ++ ", " else err_s) ++ err.render)

/-- Go `(e *APIResponseError) String()`. A slice that was never appended to is `nil`. -/
def APIResponseError.String (e : APIResponseError) : String :=
  if e.Errors.isEmpty then "" else writeErrors e.Errors 0 "errors: "

/-! ## The outside of the package -/

/-- Request body handed to `http.NewRequest`: `nil`, the reader over an encoded form
(`strings.NewReader(fields.Encode())`, kept as the form it encodes), or a buffer. -/
inductive Body where
  | nil
  | form (fields : Values)
  | data (s : String)
  deriving DecidableEq, Repr

/-- An outbound request as handed to `client.Do`. -/
structure Request where
  method : String
  url : String
  contentType : String
  authorization : Option String
  body : Body
  deriving DecidableEq, Repr

/-- What the package reads of `*http.Response`: status code and `Content-Type`. -/
structure Response where
  StatusCode : Int
  ContentType : String
  deriving DecidableEq, Repr

/-- What one round trip comes to: `client.Do` fails, reading the body fails, or a
response with its whole body arrives. -/
inductive Outcome where
  | doError (e : String)
  | readError (status : Int) (contentType : String) (e : String)
  | response (status : Int) (contentType : String) (body : String)
  deriving DecidableEq, Repr

/-- Ghost log entry: a call of `Login`, or a request handed to `client.Do`. -/
inductive Event where
  | login (grantType scope : String)
  | request (r : Request)
  deriving DecidableEq, Repr

/-- Go `json.Unmarshal` and `xml.Unmarshal` into a target of type `τ`: the target as
the decoder leaves it, with the error if any. -/
structure Codec (τ : Type) where
  json : String → τ → τ × Option String
  xml : String → τ → τ × Option String

/-- The decoders `sendRequest` can apply to its target, by declared content type.
`text` is the type switch of the plain text branch: present for `*string` and
`*[]byte` targets only. -/
structure Decoder (τ : Type) where
  json : String → τ → τ × Option String
  xml : String → τ → τ × Option String
  text : Option (String → τ)

/-- Target that is a struct: plain text cannot be stored in it. -/
def Codec.structTarget {τ : Type} (c : Codec τ) : Decoder τ :=
  { json := c.json, xml := c.xml, text := none }

/-- Target that is `*string` or `*[]byte`: plain text is copied verbatim. -/
def Codec.textTarget (c : Codec String) : Decoder String :=
  { json := c.json, xml := c.xml, text := some (fun body => body) }

/-- Everything the package calls but does not define. -/
structure Env where
  /-- The reading of `time.Now()` number `i`. -/
  clock : Nat → Time
  /-- Error of `http.NewRequest(method, url, body)`, if any. -/
  newRequestErr : String → String → Option String
  /-- The round trip of `client.Do` followed by `ioutil.ReadAll`. -/
  transport : Request → Outcome
  /-- Error of `os.Create(fileName)`, if any. -/
  createErr : String → Option String
  /-- Error of `f.Write(b)` on the named file, if any. -/
  writeErr : String → String → Option String
  /-- Go `json.MarshalIndent(source, "", "\t")` of a Token State. -/
  jsonMarshalIndent : APIResponseAuth → Except String String
  /-- Go `xml.Marshal` of a record request. -/
  xmlMarshal : APIRequestZoneRecords → Except String String
  /-- Go `json.Unmarshal` into a fresh `APIResponseErrorJSON`. -/
  jsonUnmarshalErrorJSON : String → Except String APIResponseErrorJSON
  /-- Tokenizer of `encoding/xml`: the root element of a document, or the syntax error. -/
  xmlParse : String → Except String XmlElement
  /-- Go `strconv.Quote`, which the messages of `strconv` errors apply to their input. -/
  strconvQuote : String → String
  auth : Codec APIResponseAuth
  ttl : Codec APIResponseTTL
  zones : Codec APIResponseDomainZones
  bytes : Codec String
  text : Codec String
  revisionsJSON : String → APIResponseZoneRevisions → APIResponseZoneRevisions × Option String
  records : Codec APIResponseZoneRecords

/-- The mutable outside: files by name (`none`: no such file; an error: the file
exists and cannot be read), the number of clock readings taken, the ghost log. -/
structure World where
  files : String → Option (Except String String)
  ticks : Nat
  log : List Event

def World.record (w : World) (e : Event) : World := { w with log := w.log ++ [e] }

def World.setFile (w : World) (fileName content : String) : World :=
  { w with files := fun n => if n = fileName then some (Except.ok content) else w.files n }

/-- Go `time.Now()`. -/
def timeNow (env : Env) (w : World) : Time × World :=
  (env.clock w.ticks, { w with ticks := w.ticks + 1 })

/-- The UTF-8 byte order mark `EF BB BF`, as a character. -/
def BOM : Char := Char.ofNat 65279

/-- Go `bytes.TrimPrefix(file, []byte("\xef\xbb\xbf"))`. -/
def trimBOM (file : String) : String :=
  match file.data with
  | c :: rest => if c = BOM then String.mk rest else file
  | [] => file

/-- Go `LoadFromJSONFile(fileName, target)`, for a target with the given decoder. -/
def LoadFromJSONFile {τ : Type} (jsonUnmarshal : String → τ → τ × Option String)
    (fileName : String) (target : τ) (w : World) : τ × Option String :=
  match w.files fileName with
  | none => (target, some ("open " ++ fileName ++ ": no such file or directory"))
  | some (Except.error e) => (target, some e)
  | some (Except.ok file) => jsonUnmarshal (trimBOM file) target

/-- Go `SaveToJSONFile(fileName, source)` for a Token State. `os.Create` truncates the
file before anything is written; a write that fails is taken to leave it empty. -/
def SaveToJSONFile (env : Env) (fileName : String) (source : APIResponseAuth) (w : World) :
    World × Option String :=
  match env.createErr fileName with
  | some e => (w, some e)
  | none =>
    match env.jsonMarshalIndent source with
    | Except.error e => (w.setFile fileName "", some e)
    | Except.ok b =>
      match env.writeErr fileName b with
      | some e => (w.setFile fileName "", some e)
      | none => (w.setFile fileName b, none)

/-- Go `fileExists(fileName)`: `os.Stat` succeeds. -/
def fileExists (fileName : String) (w : World) : Bool := (w.files fileName).isSome

/-! ## The manager -/

/-- Go `NewAPIResponseAuth()`: a fresh Token State stamped with the current time. -/
def NewAPIResponseAuth (env : Env) (w : World) : APIResponseAuth × World :=
  ({ AccessToken := "", ExpiresIn := 0, RefreshToken := "", TokenTime := (timeNow env w).1 },
   (timeNow env w).2)

/-- Go `getAPICmdEntry(service, zone)`. -/
def getAPICmdEntry (service zone : String) : String :=
  API_ENTRY ++ ("/services/" ++ service) ++ ("/zones/" ++ zone)

/-- Go `NewDNSManager(auth, service, zone, debug)`; the zero time is `0`. -/
def NewDNSManager (auth : DNSManagerAuth) (service zone : String) (debug : Bool) : DNSManager :=
  { APIAuth := { AccessToken := "", ExpiresIn := 0, RefreshToken := "", TokenTime := 0 },
    Auth := auth, Service := service, Zone := zone, GrantType := "", Scope := "", Debug := debug }

/-- Go `(m *DNSManager) getQueryFileName()`. -/
def getQueryFileName (m : DNSManager) : String :=
  "~" ++ m.Service ++ "-" ++ m.Zone ++ ".json"

/-- Result of a method returning `error`: the manager and the world after the call. -/
structure AuthResult where
  m : DNSManager
  w : World
  err : Option String

/-- Result of `sendRequest`: manager, world, the target as left by the decoders,
the response and the error. -/
structure SendResult (τ : Type) where
  m : DNSManager
  w : World
  respStruct : Option τ
  resp : Option Response
  err : Option String

/-- The `Content-Type` request header chosen from the request type. -/
def requestContentType : requestType → String
  | requestType.REQUEST_CT_FORM => "application/x-www-form-urlencoded"
  | requestType.REQUEST_CT_TEXT => "text/plain; charset=UTF-8"
  | requestType.REQUEST_CT_XML => "text/xml; charset=UTF-8"

/-- Go `xml.Unmarshal(body_resp, &b)` with `b := APIResponseError{}`. -/
def xmlUnmarshalAPIResponseError (env : Env) (body_resp : String) : Except String APIResponseError :=
  match env.xmlParse body_resp with
  | Except.error e => Except.error e
  | Except.ok root => unmarshalAPIResponseError root { XMLName := "", Status := "", Errors := [] }

/-- The error branch of `sendRequest` (status outside 200..299): the error returned. -/
def errorResponse (env : Env) (status : Int) (ct body_resp : String) : String :=
  if stringsIndex ct CONTENT_TYPE_JSON ≥ 0 then
    match env.jsonUnmarshalErrorJSON body_resp with
    | Except.error e => e
    | Except.ok b => "HTTP status: " ++ fmtInt status ++ ", error: " ++ b.Error
  else if stringsIndex ct CONTENT_TYPE_XML ≥ 0 then
    match xmlUnmarshalAPIResponseError env body_resp with
    | Except.error e => e
    | Except.ok b => b.String
  else
    "error body content type " ++ ct ++ " not supported. HTTP status: " ++ fmtInt status ++
      ", body: " ++ body_resp

/-- The success branch of `sendRequest` for a non-nil target: the target after
decoding, and the error if any. -/
def decodeInto {τ : Type} (dec : Decoder τ) (status : Int) (ct body_resp : String) (target : τ) :
    τ × Option String :=
  if stringsIndex ct CONTENT_TYPE_JSON ≥ 0 then dec.json body_resp target
  else if stringsIndex ct CONTENT_TYPE_XML ≥ 0 then dec.xml body_resp target
  else if stringsIndex ct CONTENT_TYPE_TXT ≥ 0 then
    match dec.text with
    | some store => (store body_resp, none)
    | none => (target, some "respStruct.(*string) fail")
  else (target, some ("body content type " ++ ct ++ " not supported. HTTP status: " ++ fmtInt status))

/-- The opening of `sendRequest`: the token check, skipped for the authentication
request itself. `checkAuth` stands for `m.checkAPIAuth()`. -/
def tokenCheck (checkAuth : DNSManager → World → AuthResult) (isAuthRequest : Bool)
    (m : DNSManager) (w : World) : AuthResult :=
  if !isAuthRequest then checkAuth m w else ⟨m, w, none⟩

/-- The request `sendRequest` hands to `client.Do`: method, URL on the fixed host and
body, the `Content-Type` header, and the bearer token unless this is the
authentication request. -/
def buildRequest (m : DNSManager) (method : String) (reqType : requestType) (apiEntry : String)
    (body : Body) (isAuthRequest : Bool) : Request :=
  { method := method, url := HOST ++ apiEntry, contentType := requestContentType reqType,
    authorization := if !isAuthRequest then some ("Bearer " ++ m.APIAuth.AccessToken) else none,
    body := body }

/-- Go `(m *DNSManager) sendRequest(method, reqType, apiEntry, body, respStruct,
isAuthRequest)`, with the call of `m.checkAPIAuth()` taken as the argument `checkAuth`
(`sendRequest`, `checkAPIAuth` and `Login` call each other). -/
def sendRequestWith {τ : Type} (checkAuth : DNSManager → World → AuthResult) (env : Env)
    (dec : Decoder τ) (m : DNSManager) (method : String) (reqType : requestType)
    (apiEntry : String) (body : Body) (respStruct : Option τ) (isAuthRequest : Bool)
    (w : World) : SendResult τ :=
  match (tokenCheck checkAuth isAuthRequest m w).err with
  | some err =>
    ⟨(tokenCheck checkAuth isAuthRequest m w).m, (tokenCheck checkAuth isAuthRequest m w).w,
      respStruct, none, some err⟩
  | none =>
    match env.newRequestErr method (HOST ++ apiEntry) with
    | some err =>
      ⟨(tokenCheck checkAuth isAuthRequest m w).m, (tokenCheck checkAuth isAuthRequest m w).w,
        respStruct, none, some err⟩
    | none =>
      let m1 := (tokenCheck checkAuth isAuthRequest m w).m
      let r := buildRequest m1 method reqType apiEntry body isAuthRequest
      let w1 := (tokenCheck checkAuth isAuthRequest m w).w.record (Event.request r)
      match env.transport r with
      | Outcome.doError err => ⟨m1, w1, respStruct, none, some err⟩
      | Outcome.readError status ct err => ⟨m1, w1, respStruct, some ⟨status, ct⟩, some err⟩
      | Outcome.response status ct body_resp =>
        if status < 200 ∨ status > 299 then
          ⟨m1, w1, respStruct, some ⟨status, ct⟩, some (errorResponse env status ct body_resp)⟩
        else
          match respStruct with
          | none => ⟨m1, w1, none, some ⟨status, ct⟩, none⟩
          | some target =>
            ⟨m1, w1, some (decodeInto dec status ct body_resp target).1, some ⟨status, ct⟩,
              (decodeInto dec status ct body_resp target).2⟩

/-- The form submitted by `Login`, built by six `fields.Set` calls. -/
def loginFields (m : DNSManager) (grantType scope : String) : Values :=
  (((((Values.Set [] "grant_type" grantType).Set "password" m.Auth.ContractPwd).Set
    "username" m.Auth.ContractLogin).Set "client_id" m.Auth.AppLogin).Set
    "client_secret" m.Auth.AppPwd).Set "scope" scope

/-- The grant type `Login` uses: `password` unless the caller gives one. -/
def effectiveGrantType (grantType : String) : String :=
  if grantType = "" then "password" else grantType

/-- The scope `Login` uses: `.*` unless the caller gives one. -/
def effectiveScope (scope : String) : String :=
  if scope = "" then ".*" else scope

/-- The world once `Login` has been entered (ghost log entry). -/
def loginEntered (w : World) (grantType scope : String) : World :=
  w.record (Event.login grantType scope)

/-- The first half of `Login`: the Token State is replaced by a fresh one, and the
effective grant type and scope are stored in the manager. -/
def loginStart (env : Env) (m : DNSManager) (grantType scope : String) (w : World) : DNSManager :=
  { m with APIAuth := (NewAPIResponseAuth env (loginEntered w grantType scope)).1,
           GrantType := effectiveGrantType grantType, Scope := effectiveScope scope }

/-- The request of `Login`: a form POST to the authentication endpoint, decoded into
`m.APIAuth`, sent with `isAuthRequest = true`. -/
def loginSend (env : Env) (m : DNSManager) (grantType scope : String) (w : World) :
    SendResult APIResponseAuth :=
  sendRequestWith (fun m0 w0 => ⟨m0, w0, none⟩) env env.auth.structTarget
    (loginStart env m grantType scope w) "POST" requestType.REQUEST_CT_FORM AUTH_ENTRY
    (Body.form (loginFields (loginStart env m grantType scope w) (effectiveGrantType grantType)
      (effectiveScope scope)))
    (some (loginStart env m grantType scope w).APIAuth) true
    (NewAPIResponseAuth env (loginEntered w grantType scope)).2

/-- The request `Login` sends. -/
def loginRequest (env : Env) (m : DNSManager) (grantType scope : String) (w : World) : Request :=
  buildRequest (loginStart env m grantType scope w) "POST" requestType.REQUEST_CT_FORM AUTH_ENTRY
    (Body.form (loginFields (loginStart env m grantType scope w) (effectiveGrantType grantType)
      (effectiveScope scope))) true

/-- The manager after the request of `Login`: the target of the request is `m.APIAuth`
itself, so whatever the decoder stored is the manager's Token State. -/
def loginStored (r : SendResult APIResponseAuth) : DNSManager :=
  { r.m with APIAuth := r.respStruct.getD r.m.APIAuth }

/-- Go `(m *DNSManager) Login(grantType, scope)`: on error the error is returned,
otherwise the Token State is saved to the query file and the result of the save is
dropped. -/
def Login (env : Env) (m : DNSManager) (grantType scope : String) (w : World) : AuthResult :=
  match (loginSend env m grantType scope w).err with
  | some err =>
    ⟨loginStored (loginSend env m grantType scope w), (loginSend env m grantType scope w).w, some err⟩
  | none =>
    ⟨loginStored (loginSend env m grantType scope w),
      (SaveToJSONFile env (getQueryFileName (loginStored (loginSend env m grantType scope w)))
        (loginStored (loginSend env m grantType scope w)).APIAuth
        (loginSend env m grantType scope w).w).1, none⟩

/-- The first step of `checkAPIAuth`: the cached Token State is loaded over
`m.APIAuth` when the cache file exists; the error of the load is discarded. -/
def loadCache (env : Env) (m : DNSManager) (w : World) : DNSManager :=
  if fileExists (getQueryFileName m) w then
    { m with APIAuth := (LoadFromJSONFile env.auth.json (getQueryFileName m) m.APIAuth w).1 }
  else m

/-- The test of `checkAPIAuth`, "no token or expired", with the world after it:
the clock is read only when the token is non-empty and the lifetime positive. -/
def tokenExpired (env : Env) (a : APIResponseAuth) (w : World) : Bool × World :=
  if a.AccessToken = "" then (true, w)
  else if a.ExpiresIn > 0 then
    ((a.TokenTime.Add (secondsDuration a.ExpiresIn)).Before (timeNow env w).1, (timeNow env w).2)
  else (false, w)

/-- Go `(m *DNSManager) checkAPIAuth()`: loads the cached token, checks expiration,
calls `Login` if needed. -/
def checkAPIAuth (env : Env) (m : DNSManager) (w : World) : AuthResult :=
  let m1 := loadCache env m w
  if (tokenExpired env m1.APIAuth w).1 then
    Login env m1 m1.GrantType m1.Scope (tokenExpired env m1.APIAuth w).2
  else ⟨m1, (tokenExpired env m1.APIAuth w).2, none⟩

/-- Go `(m *DNSManager) sendRequest(...)`. -/
def sendRequest {τ : Type} (env : Env) (dec : Decoder τ) (m : DNSManager) (method : String)
    (reqType : requestType) (apiEntry : String) (body : Body) (respStruct : Option τ)
    (isAuthRequest : Bool) (w : World) : SendResult τ :=
  sendRequestWith (checkAPIAuth env) env dec m method reqType apiEntry body respStruct
    isAuthRequest w

/-! ## The public operations -/

/-- Result of a public operation: manager and world after the call, the value
returned and the error. -/
structure OpResult (α : Type) where
  m : DNSManager
  w : World
  val : α
  err : Option String

/-- Decoders of a call that passes `nil` as `respStruct`; none is ever applied. -/
def noTarget : Decoder Unit :=
  { json := fun _ t => (t, none), xml := fun _ t => (t, none), text := none }

/-- Decoders of a `*APIResponseZoneRevisions` target. When the XML decoding fails the
target is returned as it was; `GetRevisions` drops it in that case. -/
def revisionsDecoder (env : Env) : Decoder APIResponseZoneRevisions :=
  { json := env.revisionsJSON,
    xml := fun body_resp v =>
      match env.xmlParse body_resp with
      | Except.error e => (v, some e)
      | Except.ok root =>
        match unmarshalAPIResponseZoneRevisions env.strconvQuote root v with
        | Except.ok v1 => (v1, none)
        | Except.error e => (v, some e),
    text := none }

/-- Go `(m *DNSManager) GetDefaultTTL()`. -/
def GetDefaultTTL (env : Env) (m : DNSManager) (w : World) : OpResult Int :=
  let r := sendRequest env env.ttl.structTarget m "GET" requestType.REQUEST_CT_TEXT
    (getAPICmdEntry m.Service m.Zone ++ METH_TTL) Body.nil (some ⟨0⟩) false w
  match r.err with
  | some err => ⟨r.m, r.w, 0, some err⟩
  | none => ⟨r.m, r.w, (r.respStruct.getD ⟨0⟩).DefaultTTL, none⟩

/-- Go `(m *DNSManager) SetDefaultTTL(ttl)`. -/
def SetDefaultTTL (env : Env) (m : DNSManager) (ttl : Int) (w : World) : OpResult Unit :=
  let r := sendRequest env noTarget m "POST" requestType.REQUEST_CT_XML
    (getAPICmdEntry m.Service m.Zone ++ METH_TTL)
    (Body.data ("<request><default-ttl>" ++ fmtInt ttl ++ "</default-ttl></request>")) none false w
  ⟨r.m, r.w, (), r.err⟩

/-- Go `(m *DNSManager) GetZones()`. -/
def GetZones (env : Env) (m : DNSManager) (w : World) : OpResult (List DomainZone) :=
  let r := sendRequest env env.zones.structTarget m "GET" requestType.REQUEST_CT_TEXT
    (getAPICmdEntry m.Service "") Body.nil (some ⟨"", []⟩) false w
  match r.err with
  | some err => ⟨r.m, r.w, [], some err⟩
  | none => ⟨r.m, r.w, (r.respStruct.getD ⟨"", []⟩).Zones, none⟩

/-- Go `(m *DNSManager) GetFile()`. -/
def GetFile (env : Env) (m : DNSManager) (w : World) : OpResult String :=
  let r := sendRequest env env.bytes.textTarget m "GET" requestType.REQUEST_CT_TEXT
    (getAPICmdEntry m.Service m.Zone) Body.nil (some "") false w
  match r.err with
  | some err => ⟨r.m, r.w, "", some err⟩
  | none => ⟨r.m, r.w, r.respStruct.getD "", none⟩

/-- Go `(m *DNSManager) PutFile(zoneFileData)`. -/
def PutFile (env : Env) (m : DNSManager) (zoneFileData : String) (w : World) : OpResult Unit :=
  let r := sendRequest env noTarget m "POST" requestType.REQUEST_CT_TEXT
    (getAPICmdEntry m.Service m.Zone) (Body.data zoneFileData) none false w
  ⟨r.m, r.w, (), r.err⟩

/-- Go `(m *DNSManager) Rollback()`. -/
def Rollback (env : Env) (m : DNSManager) (w : World) : OpResult Unit :=
  let r := sendRequest env noTarget m "POST" requestType.REQUEST_CT_TEXT
    (getAPICmdEntry m.Service m.Zone ++ METH_ROLLBACK) Body.nil none false w
  ⟨r.m, r.w, (), r.err⟩

/-- Go `(m *DNSManager) Commit()`. -/
def Commit (env : Env) (m : DNSManager) (w : World) : OpResult Unit :=
  let r := sendRequest env noTarget m "POST" requestType.REQUEST_CT_TEXT
    (getAPICmdEntry m.Service m.Zone ++ METH_COMMIT) Body.nil none false w
  ⟨r.m, r.w, (), r.err⟩

/-- Go `(m *DNSManager) GetRevisions()`. -/
def GetRevisions (env : Env) (m : DNSManager) (w : World) : OpResult (List ZoneRevision) :=
  let r := sendRequest env (revisionsDecoder env) m "GET" requestType.REQUEST_CT_TEXT
    (getAPICmdEntry m.Service m.Zone ++ METH_REVIS) Body.nil (some ⟨"", []⟩) false w
  match r.err with
  | some err => ⟨r.m, r.w, [], some err⟩
  | none => ⟨r.m, r.w, (r.respStruct.getD ⟨"", []⟩).Revisions, none⟩

/-- Go `(m *DNSManager) GetRevision(revisNumber)`. -/
def GetRevision (env : Env) (m : DNSManager) (revisNumber : Int) (w : World) : OpResult String :=
  let r := sendRequest env env.text.textTarget m "GET" requestType.REQUEST_CT_TEXT
    (getAPICmdEntry m.Service m.Zone ++ METH_REVIS ++ ("/" ++ fmtInt revisNumber)) Body.nil
    (some "") false w
  match r.err with
  | some err => ⟨r.m, r.w, "", some err⟩
  | none => ⟨r.m, r.w, r.respStruct.getD "", none⟩

/-- Go `(m *DNSManager) SetRevision(revisNumber)`. -/
def SetRevision (env : Env) (m : DNSManager) (revisNumber : Int) (w : World) : OpResult Unit :=
  let r := sendRequest env noTarget m "POST" requestType.REQUEST_CT_XML
    (getAPICmdEntry m.Service m.Zone ++ METH_REVIS ++ ("/" ++ fmtInt revisNumber)) Body.nil
    none false w
  ⟨r.m, r.w, (), r.err⟩

/-- Go `(m *DNSManager) GetZoneRecords()`. -/
def GetZoneRecords (env : Env) (m : DNSManager) (w : World) : OpResult (List ZoneRecord) :=
  let r := sendRequest env env.records.structTarget m "GET" requestType.REQUEST_CT_TEXT
    (getAPICmdEntry m.Service m.Zone ++ METH_REC) Body.nil (some ⟨"", []⟩) false w
  match r.err with
  | some err => ⟨r.m, r.w, [], some err⟩
  | none => ⟨r.m, r.w, (r.respStruct.getD ⟨"", []⟩).Records, none⟩

/-- Go `(m *DNSManager) DeleteZoneRecord(recordId)`. -/
def DeleteZoneRecord (env : Env) (m : DNSManager) (recordId : String) (w : World) :
    OpResult Unit :=
  let r := sendRequest env noTarget m "DELETE" requestType.REQUEST_CT_TEXT
    (getAPICmdEntry m.Service m.Zone ++ METH_REC ++ ("/" ++ recordId)) Body.nil none false w
  ⟨r.m, r.w, (), r.err⟩

/-- Go `(m *DNSManager) AddZoneRecord(rec)`. -/
def AddZoneRecord (env : Env) (m : DNSManager) (rec : APIRequestZoneRecords) (w : World) :
    OpResult Unit :=
  match env.xmlMarshal rec with
  | Except.error err => ⟨m, w, (), some err⟩
  | Except.ok rec_b =>
    let r := sendRequest env noTarget m "PUT" requestType.REQUEST_CT_TEXT
      (getAPICmdEntry m.Service m.Zone ++ METH_REC) (Body.data (XML_HEADER ++ rec_b)) none false w
    ⟨r.m, r.w, (), r.err⟩

/-- The public API operations with their arguments. -/
inductive Operation where
  | GetDefaultTTL
  | SetDefaultTTL (ttl : Int)
  | GetZones
  | GetFile
  | PutFile (zoneFileData : String)
  | Rollback
  | Commit
  | GetRevisions
  | GetRevision (revisNumber : Int)
  | SetRevision (revisNumber : Int)
  | GetZoneRecords
  | DeleteZoneRecord (recordId : String)
  | AddZoneRecord (rec : APIRequestZoneRecords)

/-- The manager, the world and the error of a result, without the value. -/
def OpResult.outcome {α : Type} (r : OpResult α) : AuthResult := ⟨r.m, r.w, r.err⟩

/-- One call of a public operation, keeping the manager, the world and the error. -/
def runOperation (env : Env) (m : DNSManager) (w : World) : Operation → AuthResult
  | Operation.GetDefaultTTL => (GetDefaultTTL env m w).outcome
  | Operation.SetDefaultTTL ttl => (SetDefaultTTL env m ttl w).outcome
  | Operation.GetZones => (GetZones env m w).outcome
  | Operation.GetFile => (GetFile env m w).outcome
  | Operation.PutFile zoneFileData => (PutFile env m zoneFileData w).outcome
  | Operation.Rollback => (Rollback env m w).outcome
  | Operation.Commit => (Commit env m w).outcome
  | Operation.GetRevisions => (GetRevisions env m w).outcome
  | Operation.GetRevision revisNumber => (GetRevision env m revisNumber w).outcome
  | Operation.SetRevision revisNumber => (SetRevision env m revisNumber w).outcome
  | Operation.GetZoneRecords => (GetZoneRecords env m w).outcome
  | Operation.DeleteZoneRecord recordId => (DeleteZoneRecord env m recordId w).outcome
  | Operation.AddZoneRecord rec => (AddZoneRecord env m rec w).outcome

/-- Number of `Login` calls in a log. -/
def loginCalls : List Event → Nat
  | [] => 0
  | Event.login _ _ :: rest => loginCalls rest + 1
  | Event.request _ :: rest => loginCalls rest

/-- The requests of a log, in the order they were sent. -/
def requestsOf : List Event → List Request
  | [] => []
  | Event.login _ _ :: rest => requestsOf rest
  | Event.request r :: rest => r :: requestsOf rest

/-- The HTTP method of a public operation. -/
def operationMethod : Operation → String
  | Operation.GetDefaultTTL => "GET"
  | Operation.SetDefaultTTL _ => "POST"
  | Operation.GetZones => "GET"
  | Operation.GetFile => "GET"
  | Operation.PutFile _ => "POST"
  | Operation.Rollback => "POST"
  | Operation.Commit => "POST"
  | Operation.GetRevisions => "GET"
  | Operation.GetRevision _ => "GET"
  | Operation.SetRevision _ => "POST"
  | Operation.GetZoneRecords => "GET"
  | Operation.DeleteZoneRecord _ => "DELETE"
  | Operation.AddZoneRecord _ => "PUT"

/-- The path of a public operation, for the service and zone of the manager. -/
def operationEntry (m : DNSManager) : Operation → String
  | Operation.GetDefaultTTL => getAPICmdEntry m.Service m.Zone ++ METH_TTL
  | Operation.SetDefaultTTL _ => getAPICmdEntry m.Service m.Zone ++ METH_TTL
  | Operation.GetZones => getAPICmdEntry m.Service ""
  | Operation.GetFile => getAPICmdEntry m.Service m.Zone
  | Operation.PutFile _ => getAPICmdEntry m.Service m.Zone
  | Operation.Rollback => getAPICmdEntry m.Service m.Zone ++ METH_ROLLBACK
  | Operation.Commit => getAPICmdEntry m.Service m.Zone ++ METH_COMMIT
  | Operation.GetRevisions => getAPICmdEntry m.Service m.Zone ++ METH_REVIS
  | Operation.GetRevision revisNumber =>
    getAPICmdEntry m.Service m.Zone ++ METH_REVIS ++ ("/" ++ fmtInt revisNumber)
  | Operation.SetRevision revisNumber =>
    getAPICmdEntry m.Service m.Zone ++ METH_REVIS ++ ("/" ++ fmtInt revisNumber)
  | Operation.GetZoneRecords => getAPICmdEntry m.Service m.Zone ++ METH_REC
  | Operation.DeleteZoneRecord recordId =>
    getAPICmdEntry m.Service m.Zone ++ METH_REC ++ ("/" ++ recordId)
  | Operation.AddZoneRecord _ => getAPICmdEntry m.Service m.Zone ++ METH_REC

/-- The error of the marshalling a public operation does before it calls
`sendRequest`: `AddZoneRecord` marshals its records, the other operations nothing. -/
def operationMarshalErr (env : Env) : Operation → Option String
  | Operation.AddZoneRecord rec =>
    match env.xmlMarshal rec with
    | Except.error err => some err
    | Except.ok _ => none
  | _ => none

/-- The conditions under which a public operation gets as far as `client.Do` with its
API request: the marshalling, the token check and the construction of the request
all succeed. -/
def operationSent (env : Env) (m : DNSManager) (w : World) (op : Operation) : Prop :=
  operationMarshalErr env op = none ∧ (checkAPIAuth env m w).err = none ∧
  env.newRequestErr (operationMethod op) (HOST ++ operationEntry m op) = none

/-- The events one public operation may add to the log: at most one `Login` call with
at most one request to the authentication endpoint, followed by at most one request,
to `url`. The request to `url` is present exactly when `sent` holds, it is present
when the operation returns no error, and it never follows a `Login` that sent no
authentication request. -/
def RoundTrips (before after : List Event) (err : Option String) (url : String)
    (sent : Prop) : Prop :=
  ∃ pre post : List Event,
    after = before ++ pre ++ post ∧
    (pre = [] ∨ ((∃ g s, pre = [Event.login g s]) ∧ post = []) ∨
      ∃ g s r, pre = [Event.login g s, Event.request r] ∧ r.url = HOST ++ AUTH_ENTRY) ∧
    (post = [] ∨ ∃ r, post = [Event.request r] ∧ r.url = url) ∧
    (err = none → post ≠ []) ∧
    (post ≠ [] ↔ sent)

/-- Whether a request goes to a path under the API entry of the fixed host. -/
def underAPIEntry (r : Request) : Bool := (HOST ++ API_ENTRY).data.isPrefixOf r.url.data

/-- The attribute lists of the `revision` elements among the items of a `data`
element, in document order. -/
def revisionElements : List XmlNode → List (List (String × String))
  | [] => []
  | XmlNode.text _ :: rest => revisionElements rest
  | XmlNode.elem name attrs _ :: rest =>
    if name = "revision" then attrs :: revisionElements rest else revisionElements rest

/-- What it means for a `revision` element with the given attributes to describe the
revision `r`: attribute names are distinct, `date` and `ip` are the texts of `r`, and
`number` is the decimal text of `r.Number`, an integer of the `int64` range. -/
def DescribesRevision (attrs : List (String × String)) (r : ZoneRevision) : Prop :=
  (attrs.map Prod.fst).Nodup ∧ ("date", r.Date) ∈ attrs ∧ ("ip", r.IP) ∈ attrs ∧
  ("number", fmtInt r.Number) ∈ attrs ∧
  -9223372036854775808 ≤ r.Number ∧ r.Number < 9223372036854775808

/-! ## Example environments -/

/-- An environment where the network is down and every decoder leaves its target as
it is: the clock stands at `0`, `client.Do` fails, files can be written, and
`strconv.Quote` puts its text, taken to need no escape, between double quotes. -/
def quietEnv : Env :=
  { clock := fun _ => 0
    newRequestErr := fun _ _ => none
    transport := fun _ => Outcome.doError "dial tcp: connection refused"
    createErr := fun _ => none
    writeErr := fun _ _ => none
    jsonMarshalIndent := fun _ => Except.ok ""
    xmlMarshal := fun _ => Except.ok ""
    jsonUnmarshalErrorJSON := fun _ => Except.ok ⟨""⟩
    xmlParse := fun _ => Except.error "EOF"
    strconvQuote := fun s => "\"" ++ s ++ "\""
    auth := ⟨fun _ t => (t, none), fun _ t => (t, none)⟩
    ttl := ⟨fun _ t => (t, none), fun _ t => (t, none)⟩
    zones := ⟨fun _ t => (t, none), fun _ t => (t, none)⟩
    bytes := ⟨fun _ t => (t, none), fun _ t => (t, none)⟩
    text := ⟨fun _ t => (t, none), fun _ t => (t, none)⟩
    revisionsJSON := fun _ t => (t, none)
    records := ⟨fun _ t => (t, none), fun _ t => (t, none)⟩ }

/-- A world without files, with an empty log. -/
def emptyWorld : World := ⟨fun _ => none, 0, []⟩

/-- A manager for service `svc` and zone `example.ru` holding the token `T`, issued
at time `0` with a lifetime of 3600 seconds. -/
def tokenManager : DNSManager :=
  { APIAuth := ⟨"T", 3600, "R", 0⟩, Auth := ⟨"app", "app-secret", "user", "user-secret"⟩,
    Service := "svc", Zone := "example.ru", GrantType := "", Scope := "", Debug := false }

/-- An environment whose server answers every request with status 200, content type
`application/json` and the empty JSON object as body; `json.Unmarshal` of that body
into a Token State stores nothing and reports no error. -/
def emptyObjectEnv : Env :=
  { quietEnv with
    transport := fun _ => Outcome.response 200 "application/json" "\x7b\x7d"
    auth := ⟨fun body t => if body = "\x7b\x7d" then (t, none)
                           else (t, some "unexpected end of JSON input"),
             fun _ t => (t, none)⟩ }

/-- An environment whose server answers every request with the given status, the
content type `text/html` and an HTML page. -/
def htmlEnv (status : Int) : Env :=
  { quietEnv with transport := fun _ => Outcome.response status "text/html" "<html></html>" }

/-- An environment whose server answers every request with status 404, content type
`text/xml` and the given body, which the XML tokenizer reads as the given document. -/
def xmlErrorEnv (body_resp : String) (root : XmlElement) : Env :=
  { quietEnv with
    transport := fun _ => Outcome.response 404 "text/xml" body_resp
    xmlParse := fun b => if b = body_resp then Except.ok root
                         else Except.error "XML syntax error" }

/-- The error body given as example in the specification. -/
def nestedErrorBody : String :=
  "<response><status>fail</status><errors><error><error code=\"55\">no domain</error></error></errors></response>"

/-- The document of `nestedErrorBody`: the `error` element carrying the code lies
inside another `error` element. -/
def nestedErrorDoc : XmlElement :=
  ⟨"response", [],
    [XmlNode.elem "status" [] [XmlNode.text "fail"],
     XmlNode.elem "errors" []
       [XmlNode.elem "error" []
         [XmlNode.elem "error" [("code", "55")] [XmlNode.text "no domain"]]]]⟩

/-- An error body in which one `errors` element lists two `error` elements. -/
def siblingErrorBody : String :=
  "<response><status>fail</status><errors><error code=\"1\">a</error><error code=\"2\">b</error></errors></response>"

/-- The document of `siblingErrorBody`. -/
def siblingErrorDoc : XmlElement :=
  ⟨"response", [],
    [XmlNode.elem "status" [] [XmlNode.text "fail"],
     XmlNode.elem "errors" []
       [XmlNode.elem "error" [("code", "1")] [XmlNode.text "a"],
        XmlNode.elem "error" [("code", "2")] [XmlNode.text "b"]]]⟩

/-- An error body in the shape the `Errors` field is declared for: one `error`
element, carrying the code, directly inside `errors`. -/
def flatErrorBody : String :=
  "<response><status>fail</status><errors><error code=\"55\">no domain</error></errors></response>"

/-- The document of `flatErrorBody`. -/
def flatErrorDoc : XmlElement :=
  ⟨"response", [],
    [XmlNode.elem "status" [] [XmlNode.text "fail"],
     XmlNode.elem "errors" [] [XmlNode.elem "error" [("code", "55")] [XmlNode.text "no domain"]]]⟩

/-- The document of `TestGetRevisionsParse`, with the white space between its
elements: three `revision` elements inside `data`, after a `status` element. -/
def testRevisionsDoc : XmlElement :=
  ⟨"response", [],
    [XmlNode.text "\n\t", XmlNode.elem "status" [] [XmlNode.text "success"], XmlNode.text "\n\t",
     XmlNode.elem "data" []
       [XmlNode.elem "revision"
          [("date", "2013-04-01 18:36:57"), ("ip", "192.168.125.12"), ("number", "3")] [],
        XmlNode.text "\n\t",
        XmlNode.elem "revision"
          [("date", "2013-04-01 18:36:57"), ("ip", "192.168.125.12"), ("number", "2")] [],
        XmlNode.text "\n\t",
        XmlNode.elem "revision"
          [("date", "2013-04-01 18:36:56"), ("ip", "no data"), ("number", "1")] [],
        XmlNode.text "\n\t"],
     XmlNode.text "\n\t"]⟩

/-- The body of a successful authentication response. -/
def tokenResponseBody : String :=
  "\x7b\"access_token\":\"T\",\"expires_in\":3600,\"refresh_token\":\"R\"\x7d"

/-- The indented JSON text of a Token State, one member per field of
`APIResponseAuth` under its `json` tag. The issuance time is shown as the reading
of the clock, where Go writes the RFC 3339 text of the same instant. -/
def tokenStateJSON (a : APIResponseAuth) : String :=
  "\x7b\n\t\"access_token\": \"" ++ a.AccessToken ++ "\",\n\t\"expires_in\": " ++
    fmtInt a.ExpiresIn ++ ",\n\t\"refresh_token\": \"" ++ a.RefreshToken ++
    "\",\n\t\"token_time\": " ++ fmtInt a.TokenTime ++ "\n\x7d"

/-- An environment whose server answers every request with status 200, content type
`application/json` and `tokenResponseBody`, which `json.Unmarshal` stores in the
three fields it names; Token States are written as `tokenStateJSON`. -/
def loginEnv : Env :=
  { quietEnv with
    transport := fun _ => Outcome.response 200 "application/json" tokenResponseBody
    jsonMarshalIndent := fun a => Except.ok (tokenStateJSON a)
    auth := ⟨fun body t =>
               if body = tokenResponseBody then
                 ({ t with AccessToken := "T", ExpiresIn := 3600, RefreshToken := "R" }, none)
               else (t, some "invalid character"),
             fun _ t => (t, none)⟩ }

/-- The text of `TestGetRevisionsParse`. -/
def testRevisionsText : String :=
  "<?xml version=\"1.0\" encoding=\"UTF-8\" ?> <response>\n\t<status>success</status>\n\t<data><revision date=\"2013-04-01 18:36:57\" ip=\"192.168.125.12\" number=\"3\" />\n\t<revision date=\"2013-04-01 18:36:57\" ip=\"192.168.125.12\" number=\"2\" />\n\t<revision date=\"2013-04-01 18:36:56\" ip=\"no data\" number=\"1\" />\n\t</data>\n\t</response>"

/-- An environment whose server answers every request with status 200, content type
`text/xml` and `testRevisionsText`, which the XML tokenizer reads as
`testRevisionsDoc`. -/
def revisionsEnv : Env :=
  { quietEnv with
    transport := fun _ => Outcome.response 200 "text/xml; charset=utf-8" testRevisionsText
    xmlParse := fun b => if b = testRevisionsText then Except.ok testRevisionsDoc
                         else Except.error "XML syntax error" }

/-! ## Lemmas on the log and the decoders -/

/-- The search of `strings.Index` finds a position iff `sub` occurs in the text. -/
theorem stringsIndexFrom_nonneg (sub l : List Char) (i : Nat) :
    0 ≤ stringsIndexFrom sub l i ↔ sub <:+: l := by
  induction l generalizing i with
  | nil =>
    unfold stringsIndexFrom
    by_cases h : sub.isPrefixOf [] = true
    · rw [if_pos h]
      have := List.isPrefixOf_iff_prefix.mp h
      simp [List.prefix_nil.mp this]
    · rw [if_neg h]
      constructor
      · intro h0; omega
      · intro hin
        exact absurd (List.isPrefixOf_iff_prefix.mpr (by
          have := List.infix_nil.mp hin
          simp [this])) h
  | cons c cs ih =>
    unfold stringsIndexFrom
    by_cases h : sub.isPrefixOf (c :: cs) = true
    · rw [if_pos h]
      have hp := List.isPrefixOf_iff_prefix.mp h
      constructor
      · intro _; exact hp.isInfix
      · intro _; omega
    · rw [if_neg h, ih (i + 1), List.infix_cons_iff]
      constructor
      · intro hh; exact Or.inr hh
      · rintro (hp | hh)
        · exact absurd (List.isPrefixOf_iff_prefix.mpr hp) h
        · exact hh

/-- Go `strings.Index(s, sub) >= 0` says that `sub` occurs in `s`. -/
theorem stringsIndex_nonneg (s sub : String) : 0 ≤ stringsIndex s sub ↔ sub.data <:+: s.data :=
  stringsIndexFrom_nonneg sub.data s.data 0


theorem loginCalls_append (a b : List Event) : loginCalls (a ++ b) = loginCalls a + loginCalls b := by
  induction a with
  | nil => simp [loginCalls]
  | cons e rest ih =>
    cases e with
    | login g s => simp [loginCalls, ih]; omega
    | request r => simp [loginCalls, ih]

theorem requestsOf_append (a b : List Event) : requestsOf (a ++ b) = requestsOf a ++ requestsOf b := by
  induction a with
  | nil => simp [requestsOf]
  | cons e rest ih =>
    cases e with
    | login g s => simp [requestsOf, ih]
    | request r => simp [requestsOf, ih]

theorem wrap64_of_fits (x : Int) (h1 : -9223372036854775808 ≤ x) (h2 : x < 9223372036854775808) :
    wrap64 x = x := by
  unfold wrap64
  omega

theorem secondsDuration_of_fits (n : Int) (h1 : 0 ≤ n) (h2 : n ≤ 9223372036) :
    secondsDuration n = n * 1000000000 := by
  unfold secondsDuration Second
  apply wrap64_of_fits <;> omega

/-- The log after `sendRequest`: nothing is sent and an error is returned, or the
token check and the construction of the request succeeded and one request is sent. -/
theorem sendRequestWith_log {τ : Type} (checkAuth : DNSManager → World → AuthResult) (env : Env)
    (dec : Decoder τ) (m : DNSManager) (method : String) (reqType : requestType)
    (apiEntry : String) (body : Body) (respStruct : Option τ) (isAuthRequest : Bool) (w : World) :
    ((sendRequestWith checkAuth env dec m method reqType apiEntry body respStruct isAuthRequest w).w.log
        = (tokenCheck checkAuth isAuthRequest m w).w.log ∧
      (sendRequestWith checkAuth env dec m method reqType apiEntry body respStruct isAuthRequest w).err
        ≠ none) ∨
    ((tokenCheck checkAuth isAuthRequest m w).err = none ∧
      env.newRequestErr method (HOST ++ apiEntry) = none ∧
      (sendRequestWith checkAuth env dec m method reqType apiEntry body respStruct isAuthRequest w).w.log
        = (tokenCheck checkAuth isAuthRequest m w).w.log ++
          [Event.request (buildRequest (tokenCheck checkAuth isAuthRequest m w).m method reqType
            apiEntry body isAuthRequest)]) := by
  unfold sendRequestWith
  split
  · left; simp
  · rename_i hauth
    split
    · left; simp
    · rename_i hnew
      right
      refine ⟨hauth, hnew, ?_⟩
      simp only []
      split
      · simp [World.record]
      · simp [World.record]
      · split
        · simp [World.record]
        · split <;> simp [World.record]

theorem sendRequestWith_files {τ : Type} (checkAuth : DNSManager → World → AuthResult) (env : Env)
    (dec : Decoder τ) (m : DNSManager) (method : String) (reqType : requestType)
    (apiEntry : String) (body : Body) (respStruct : Option τ) (isAuthRequest : Bool) (w : World) :
    (sendRequestWith checkAuth env dec m method reqType apiEntry body respStruct isAuthRequest w).w.files
        = (tokenCheck checkAuth isAuthRequest m w).w.files ∧
    (sendRequestWith checkAuth env dec m method reqType apiEntry body respStruct isAuthRequest w).w.ticks
        = (tokenCheck checkAuth isAuthRequest m w).w.ticks ∧
    (sendRequestWith checkAuth env dec m method reqType apiEntry body respStruct isAuthRequest w).m
        = (tokenCheck checkAuth isAuthRequest m w).m := by
  unfold sendRequestWith
  split
  · simp
  · split
    · simp
    · simp only []
      split
      · simp [World.record]
      · simp [World.record]
      · split
        · simp [World.record]
        · split <;> simp [World.record]

theorem SaveToJSONFile_log (env : Env) (fileName : String) (source : APIResponseAuth) (w : World) :
    (SaveToJSONFile env fileName source w).1.log = w.log ∧
    (SaveToJSONFile env fileName source w).1.ticks = w.ticks := by
  unfold SaveToJSONFile
  split
  · simp
  · split
    · simp [World.setFile]
    · split <;> simp [World.setFile]

theorem loginSend_log (env : Env) (m : DNSManager) (grantType scope : String) (w : World) :
    ((loginSend env m grantType scope w).w.log = w.log ++ [Event.login grantType scope] ∧
      (loginSend env m grantType scope w).err ≠ none) ∨
    (env.newRequestErr "POST" (HOST ++ AUTH_ENTRY) = none ∧
      (loginSend env m grantType scope w).w.log = w.log ++ [Event.login grantType scope,
        Event.request (buildRequest (loginStart env m grantType scope w) "POST"
          requestType.REQUEST_CT_FORM AUTH_ENTRY
          (Body.form (loginFields (loginStart env m grantType scope w)
            (effectiveGrantType grantType) (effectiveScope scope))) true)]) := by
  have hlog := sendRequestWith_log (fun m0 w0 => ⟨m0, w0, none⟩) env env.auth.structTarget
    (loginStart env m grantType scope w) "POST" requestType.REQUEST_CT_FORM AUTH_ENTRY
    (Body.form (loginFields (loginStart env m grantType scope w) (effectiveGrantType grantType)
      (effectiveScope scope)))
    (some (loginStart env m grantType scope w).APIAuth) true
    (NewAPIResponseAuth env (loginEntered w grantType scope)).2
  have hbase : (tokenCheck (fun m0 w0 => ⟨m0, w0, none⟩) true (loginStart env m grantType scope w)
      (NewAPIResponseAuth env (loginEntered w grantType scope)).2)
      = ⟨loginStart env m grantType scope w, (NewAPIResponseAuth env (loginEntered w grantType scope)).2, none⟩ := by
    simp [tokenCheck]
  have hl : (NewAPIResponseAuth env (loginEntered w grantType scope)).2.log
      = w.log ++ [Event.login grantType scope] := by
    simp [NewAPIResponseAuth, timeNow, loginEntered, World.record]
  rw [hbase] at hlog
  simp only [hl] at hlog
  rcases hlog with ⟨h1, h2⟩ | ⟨_, h2, h3⟩
  · left; exact ⟨h1, h2⟩
  · right; refine ⟨h2, ?_⟩
    rw [show loginSend env m grantType scope w = _ from rfl] 
    simpa using h3

/-- The log after `Login`: the call itself, then at most the authentication request. -/
theorem Login_log (env : Env) (m : DNSManager) (grantType scope : String) (w : World) :
    ((Login env m grantType scope w).w.log = w.log ++ [Event.login grantType scope] ∧
      (Login env m grantType scope w).err ≠ none) ∨
    (env.newRequestErr "POST" (HOST ++ AUTH_ENTRY) = none ∧
      (Login env m grantType scope w).w.log = w.log ++ [Event.login grantType scope,
        Event.request (buildRequest (loginStart env m grantType scope w) "POST"
          requestType.REQUEST_CT_FORM AUTH_ENTRY
          (Body.form (loginFields (loginStart env m grantType scope w)
            (effectiveGrantType grantType) (effectiveScope scope))) true)]) := by
  have h := loginSend_log env m grantType scope w
  unfold Login
  split
  · rename_i err herr
    rcases h with ⟨h1, _⟩ | ⟨h2, h3⟩
    · left; exact ⟨h1, by simp⟩
    · right; exact ⟨h2, h3⟩
  · rename_i herr
    rcases h with ⟨_, h2⟩ | ⟨h2, h3⟩
    · exact absurd herr h2
    · right
      refine ⟨h2, ?_⟩
      rw [(SaveToJSONFile_log _ _ _ _).1]; exact h3

/-- A call of `sendRequest` that returns no error got a response with a status in
200..299, and its target is what the decoder of the declared content type left. -/
theorem sendRequestWith_ok {τ : Type} (checkAuth : DNSManager → World → AuthResult) (env : Env)
    (dec : Decoder τ) (m : DNSManager) (method : String) (reqType : requestType)
    (apiEntry : String) (body : Body) (respStruct : Option τ) (isAuthRequest : Bool) (w : World)
    (h : (sendRequestWith checkAuth env dec m method reqType apiEntry body respStruct
      isAuthRequest w).err = none) :
    (tokenCheck checkAuth isAuthRequest m w).err = none ∧
    env.newRequestErr method (HOST ++ apiEntry) = none ∧
    ∃ status ct body_resp,
      env.transport (buildRequest (tokenCheck checkAuth isAuthRequest m w).m method reqType
        apiEntry body isAuthRequest) = Outcome.response status ct body_resp ∧
      200 ≤ status ∧ status ≤ 299 ∧
      (sendRequestWith checkAuth env dec m method reqType apiEntry body respStruct
        isAuthRequest w).respStruct
        = respStruct.map (fun target => (decodeInto dec status ct body_resp target).1) ∧
      ∀ target, respStruct = some target → (decodeInto dec status ct body_resp target).2 = none := by
  unfold sendRequestWith at h ⊢
  split at h
  · simp at h
  · rename_i hauth
    split at h
    · simp at h
    · rename_i hnew
      refine ⟨hauth, hnew, ?_⟩
      simp only [] at h ⊢
      split at h
      · simp at h
      · simp at h
      · rename_i status ct body_resp htr
        refine ⟨status, ct, body_resp, htr, ?_⟩
        split at h
        · simp at h
        · rename_i hst
          have h1 : 200 ≤ status := by omega
          have h2 : status ≤ 299 := by omega
          rw [if_neg hst]
          refine ⟨h1, h2, ?_⟩
          split at h
          · simp
          · simp only [] at h
            simp [h]

/-- The test of `checkAPIAuth` in terms of the token and the clock reading. -/
theorem tokenExpired_fst (env : Env) (a : APIResponseAuth) (w : World) :
    (tokenExpired env a w).1 = true ↔
      (a.AccessToken = "" ∨
        (0 < a.ExpiresIn ∧ a.TokenTime + secondsDuration a.ExpiresIn < env.clock w.ticks)) := by
  unfold tokenExpired
  by_cases h1 : a.AccessToken = ""
  · simp [h1]
  · by_cases h2 : a.ExpiresIn > 0
    · simp [h1, h2, Time.Before, Time.Add, timeNow]
    · simp [h1, h2]

/-- The test of `checkAPIAuth` changes neither the log nor the files. -/
theorem tokenExpired_log (env : Env) (a : APIResponseAuth) (w : World) :
    (tokenExpired env a w).2.log = w.log ∧ (tokenExpired env a w).2.files = w.files := by
  unfold tokenExpired
  split
  · simp
  · split <;> simp [timeNow]

/-- The number of `Login` calls of `checkAPIAuth`, by the test on the loaded token. -/
theorem checkAPIAuth_calls (env : Env) (m : DNSManager) (w : World) :
    loginCalls (checkAPIAuth env m w).w.log = loginCalls w.log +
      (if (loadCache env m w).APIAuth.AccessToken = "" ∨
          (0 < (loadCache env m w).APIAuth.ExpiresIn ∧
            (loadCache env m w).APIAuth.TokenTime +
              secondsDuration (loadCache env m w).APIAuth.ExpiresIn < env.clock w.ticks)
       then 1 else 0) := by
  have hexp := tokenExpired_fst env (loadCache env m w).APIAuth w
  have hlog := (tokenExpired_log env (loadCache env m w).APIAuth w).1
  unfold checkAPIAuth
  simp only []
  by_cases hc : (tokenExpired env (loadCache env m w).APIAuth w).1 = true
  · rw [if_pos hc, if_pos (hexp.mp hc)]
    rcases Login_log env (loadCache env m w) (loadCache env m w).GrantType
      (loadCache env m w).Scope (tokenExpired env (loadCache env m w).APIAuth w).2 with
      ⟨h, _⟩ | ⟨_, h⟩
    · rw [h, hlog, loginCalls_append]; simp [loginCalls]
    · rw [h, hlog, loginCalls_append]; simp [loginCalls]
  · rw [if_neg hc, if_neg (fun h => hc (hexp.mpr h))]
    simp [hlog]

/-! ## Token check and login (C1) -/

/-- C1 as stated fails at the instant of expiry. The token `T`, issued at time `0`
with the nonzero lifetime 3600 s, is checked when the clock reads exactly 3600 s:
`now >= TokenTime + ExpiresIn` holds, no cache file replaces the token, and
`checkAPIAuth` makes no `Login` call, because `Before` is strict. -/
theorem checkAPIAuth_no_login_at_expiry_instant :
    tokenManager.APIAuth.ExpiresIn ≠ 0 ∧
    (3600000000000 : Int) ≥
      tokenManager.APIAuth.TokenTime + tokenManager.APIAuth.ExpiresIn * Second ∧
    (loadCache { quietEnv with clock := fun _ => 3600000000000 } tokenManager emptyWorld).APIAuth
      = tokenManager.APIAuth ∧
    loginCalls (checkAPIAuth { quietEnv with clock := fun _ => 3600000000000 } tokenManager
      emptyWorld).w.log = 0 := by
  decide

/-- C1, amended. Let `tok` be the Token State in effect once the cache file has been
loaded and `now` the clock reading of the check. For every `tok` whose lifetime
`ExpiresIn` is at most 9223372036 s (so that it fits a `time.Duration`) and every
`now`, `checkAPIAuth` makes exactly one `Login` call when `tok.AccessToken` is empty,
or when `ExpiresIn > 0` and `TokenTime + ExpiresIn s < now` (strictly); it makes no
`Login` call otherwise, in particular none at `now = TokenTime + ExpiresIn s`. -/
theorem checkAPIAuth_login_count (env : Env) (m : DNSManager) (w : World)
    (hfit : (loadCache env m w).APIAuth.ExpiresIn ≤ 9223372036) :
    loginCalls (checkAPIAuth env m w).w.log = loginCalls w.log +
      (if (loadCache env m w).APIAuth.AccessToken = "" ∨
          (0 < (loadCache env m w).APIAuth.ExpiresIn ∧
            (loadCache env m w).APIAuth.TokenTime +
              (loadCache env m w).APIAuth.ExpiresIn * 1000000000 < env.clock w.ticks)
       then 1 else 0) := by
  have key := checkAPIAuth_calls env m w
  by_cases hpos : 0 < (loadCache env m w).APIAuth.ExpiresIn
  · rw [secondsDuration_of_fits _ (le_of_lt hpos) hfit] at key
    exact key
  · rw [key]
    congr 1
    have h1 : ¬ (0 < (loadCache env m w).APIAuth.ExpiresIn ∧
        (loadCache env m w).APIAuth.TokenTime +
          secondsDuration (loadCache env m w).APIAuth.ExpiresIn < env.clock w.ticks) :=
      fun h => hpos h.1
    have h2 : ¬ (0 < (loadCache env m w).APIAuth.ExpiresIn ∧
        (loadCache env m w).APIAuth.TokenTime +
          (loadCache env m w).APIAuth.ExpiresIn * 1000000000 < env.clock w.ticks) :=
      fun h => hpos h.1
    simp only [h1, h2]

/-- C1, amended, at a concrete input: one nanosecond after the expiry instant the
token `T` of `tokenManager` is expired and exactly one `Login` call is made. -/
theorem checkAPIAuth_login_count_witness :
    loginCalls (checkAPIAuth { quietEnv with clock := fun _ => 3600000000001 } tokenManager
      emptyWorld).w.log = loginCalls emptyWorld.log + 1 :=
  (checkAPIAuth_login_count { quietEnv with clock := fun _ => 3600000000001 } tokenManager
    emptyWorld (by decide)).trans (by decide)

/-- The authentication request skips the token check. -/
theorem tokenCheck_auth (checkAuth : DNSManager → World → AuthResult) (m : DNSManager) (w : World) :
    tokenCheck checkAuth true m w = ⟨m, w, none⟩ := by
  simp [tokenCheck]

/-- The request of `Login` is `sendRequest` with `isAuthRequest = true`: the token
check that `sendRequestWith` takes as argument is never called for it. -/
theorem loginSend_eq_sendRequest (env : Env) (m : DNSManager) (grantType scope : String)
    (w : World) :
    loginSend env m grantType scope w =
      sendRequest env env.auth.structTarget (loginStart env m grantType scope w) "POST"
        requestType.REQUEST_CT_FORM AUTH_ENTRY
        (Body.form (loginFields (loginStart env m grantType scope w)
          (effectiveGrantType grantType) (effectiveScope scope)))
        (some (loginStart env m grantType scope w).APIAuth) true
        (NewAPIResponseAuth env (loginEntered w grantType scope)).2 := by
  unfold loginSend sendRequest sendRequestWith
  simp only [tokenCheck_auth]

/-- The Token State `Login` starts from: empty, stamped with the current time. -/
theorem loginStart_APIAuth (env : Env) (m : DNSManager) (grantType scope : String) (w : World) :
    (loginStart env m grantType scope w).APIAuth = ⟨"", 0, "", env.clock w.ticks⟩ := by
  simp [loginStart, NewAPIResponseAuth, timeNow, loginEntered, World.record]

/-- A `Login` that returns no error got a response with a status in 200..299 whose
decoding into the fresh Token State reported no error; the manager holds the result. -/
theorem Login_ok (env : Env) (m : DNSManager) (grantType scope : String) (w : World)
    (h : (Login env m grantType scope w).err = none) :
    ∃ status ct body_resp,
      env.transport (loginRequest env m grantType scope w) = Outcome.response status ct body_resp ∧
      200 ≤ status ∧ status ≤ 299 ∧
      (decodeInto env.auth.structTarget status ct body_resp ⟨"", 0, "", env.clock w.ticks⟩).2 = none ∧
      (Login env m grantType scope w).m.APIAuth =
        (decodeInto env.auth.structTarget status ct body_resp ⟨"", 0, "", env.clock w.ticks⟩).1 := by
  have hsend : (loginSend env m grantType scope w).err = none := by
    unfold Login at h
    split at h
    · simp at h
    · assumption
  have hm : (Login env m grantType scope w).m = loginStored (loginSend env m grantType scope w) := by
    unfold Login; split <;> rfl
  obtain ⟨_, _, status, ct, body_resp, htr, h1, h2, hres, hdec⟩ :=
    sendRequestWith_ok (fun m0 w0 => ⟨m0, w0, none⟩) env env.auth.structTarget
      (loginStart env m grantType scope w) "POST" requestType.REQUEST_CT_FORM AUTH_ENTRY
      (Body.form (loginFields (loginStart env m grantType scope w) (effectiveGrantType grantType)
        (effectiveScope scope)))
      (some (loginStart env m grantType scope w).APIAuth) true
      (NewAPIResponseAuth env (loginEntered w grantType scope)).2 hsend
  rw [tokenCheck_auth] at htr
  refine ⟨status, ct, body_resp, htr, h1, h2, ?_, ?_⟩
  · rw [← loginStart_APIAuth env m grantType scope w]
    exact hdec _ rfl
  · rw [hm, loginStored]
    have : (loginSend env m grantType scope w).respStruct = _ := hres
    rw [this, ← loginStart_APIAuth env m grantType scope w]
    simp

/-! ## The Token State after the token check (C2) -/

/-- C2 as stated fails in both of its parts. (1) A manager without a token logs in;
the server answers 200 with the JSON object `{}`, which decodes without error and
stores nothing: `checkAPIAuth` returns no error and `AccessToken` is empty.
(2) The token `T` of `tokenManager` (lifetime 3600 s, nonzero) checked at the instant
of its expiry is kept: `checkAPIAuth` returns no error and
`TokenTime + ExpiresIn` is not strictly after the current time. -/
theorem checkAPIAuth_ok_without_valid_token :
    ((checkAPIAuth emptyObjectEnv
        (NewDNSManager ⟨"app", "app-secret", "user", "user-secret"⟩ "svc" "example.ru" false)
        emptyWorld).err = none ∧
      (checkAPIAuth emptyObjectEnv
        (NewDNSManager ⟨"app", "app-secret", "user", "user-secret"⟩ "svc" "example.ru" false)
        emptyWorld).m.APIAuth.AccessToken = "") ∧
    ((checkAPIAuth { quietEnv with clock := fun _ => 3600000000000 } tokenManager
        emptyWorld).err = none ∧
      (checkAPIAuth { quietEnv with clock := fun _ => 3600000000000 } tokenManager
        emptyWorld).m.APIAuth.ExpiresIn ≠ 0 ∧
      ¬ ((checkAPIAuth { quietEnv with clock := fun _ => 3600000000000 } tokenManager
          emptyWorld).m.APIAuth.TokenTime +
        (checkAPIAuth { quietEnv with clock := fun _ => 3600000000000 } tokenManager
          emptyWorld).m.APIAuth.ExpiresIn * Second > (3600000000000 : Int))) := by
  decide

/-- The clock reading `Login` stamps the fresh Token State with when `checkAPIAuth`
calls it: the reading that follows the one of the expiry test, or the first one when
the test did not read the clock because the token was empty. -/
theorem tokenExpired_ticks (env : Env) (a : APIResponseAuth) (w : World)
    (h : (tokenExpired env a w).1 = true) :
    (tokenExpired env a w).2.ticks = (if a.AccessToken = "" then w.ticks else w.ticks + 1) := by
  unfold tokenExpired at h ⊢
  by_cases h1 : a.AccessToken = ""
  · simp [h1]
  · by_cases h2 : a.ExpiresIn > 0
    · simp [h1, h2, timeNow]
    · simp [h1, h2] at h

/-- C2, amended. Whenever `checkAPIAuth` returns without error, one of two holds.
Either no `Login` call was made: the Token State is the one in effect after the
cache load, its `AccessToken` is non-empty and, if `0 < ExpiresIn <= 9223372036`,
the current time is not after `TokenTime + ExpiresIn s` (it may equal it). Or
exactly one `Login` call was made: the answer to the request of that `Login` had a
status in 200..299, and the Token State is the fresh one, stamped with the clock
reading `Login` took (the reading after the one of the expiry test, or the first
reading when the token was empty), as the decoder of the declared content type left
it on that answer, the decoding having reported no error; nothing checks that the
decoded token is non-empty or unexpired. -/
theorem checkAPIAuth_ok_token (env : Env) (m : DNSManager) (w : World)
    (h : (checkAPIAuth env m w).err = none) :
    (loginCalls (checkAPIAuth env m w).w.log = loginCalls w.log ∧
      (checkAPIAuth env m w).m.APIAuth = (loadCache env m w).APIAuth ∧
      (checkAPIAuth env m w).m.APIAuth.AccessToken ≠ "" ∧
      (0 < (checkAPIAuth env m w).m.APIAuth.ExpiresIn →
        (checkAPIAuth env m w).m.APIAuth.ExpiresIn ≤ 9223372036 →
        env.clock w.ticks ≤ (checkAPIAuth env m w).m.APIAuth.TokenTime +
          (checkAPIAuth env m w).m.APIAuth.ExpiresIn * 1000000000)) ∨
    (loginCalls (checkAPIAuth env m w).w.log = loginCalls w.log + 1 ∧
      ∃ (status : Int) (ct body_resp : String),
        env.transport (loginRequest env (loadCache env m w) (loadCache env m w).GrantType
          (loadCache env m w).Scope (tokenExpired env (loadCache env m w).APIAuth w).2)
          = Outcome.response status ct body_resp ∧
        200 ≤ status ∧ status ≤ 299 ∧
        (decodeInto env.auth.structTarget status ct body_resp
          ⟨"", 0, "", env.clock (if (loadCache env m w).APIAuth.AccessToken = "" then w.ticks
            else w.ticks + 1)⟩).2 = none ∧
        (checkAPIAuth env m w).m.APIAuth =
          (decodeInto env.auth.structTarget status ct body_resp
            ⟨"", 0, "", env.clock (if (loadCache env m w).APIAuth.AccessToken = "" then w.ticks
              else w.ticks + 1)⟩).1) := by
  have hcount := checkAPIAuth_calls env m w
  have hexp := tokenExpired_fst env (loadCache env m w).APIAuth w
  by_cases hc : (tokenExpired env (loadCache env m w).APIAuth w).1 = true
  · right
    rw [if_pos (hexp.mp hc)] at hcount
    refine ⟨hcount, ?_⟩
    have hdef : checkAPIAuth env m w = Login env (loadCache env m w) (loadCache env m w).GrantType
        (loadCache env m w).Scope (tokenExpired env (loadCache env m w).APIAuth w).2 := by
      unfold checkAPIAuth; simp only []; rw [if_pos hc]
    rw [hdef] at h ⊢
    obtain ⟨status, ct, body_resp, htr, h1, h2, hd, hm⟩ := Login_ok _ _ _ _ _ h
    rw [tokenExpired_ticks env _ w hc] at hd hm
    exact ⟨status, ct, body_resp, htr, h1, h2, hd, hm⟩
  · left
    have hn : ¬ ((loadCache env m w).APIAuth.AccessToken = "" ∨
        (0 < (loadCache env m w).APIAuth.ExpiresIn ∧
          (loadCache env m w).APIAuth.TokenTime +
            secondsDuration (loadCache env m w).APIAuth.ExpiresIn < env.clock w.ticks)) :=
      fun hh => hc (hexp.mpr hh)
    rw [if_neg hn] at hcount
    have hdef : (checkAPIAuth env m w).m = loadCache env m w := by
      unfold checkAPIAuth; simp only []; rw [if_neg hc]
    rw [hdef]
    refine ⟨hcount, rfl, fun he => hn (Or.inl he), fun hpos hfit => ?_⟩
    by_contra hlt
    refine hn (Or.inr ⟨hpos, ?_⟩)
    rw [secondsDuration_of_fits _ (le_of_lt hpos) hfit]
    exact not_le.mp hlt

/-- C2, amended, at a concrete input: half way through its lifetime the token `T`
of `tokenManager` passes the check without error; no login is made and the token is
kept. -/
theorem checkAPIAuth_ok_token_witness :
    (checkAPIAuth { quietEnv with clock := fun _ => 1800000000000 } tokenManager emptyWorld).err
      = none ∧
    (checkAPIAuth { quietEnv with clock := fun _ => 1800000000000 } tokenManager
      emptyWorld).m.APIAuth.AccessToken ≠ "" ∧
    loginCalls (checkAPIAuth { quietEnv with clock := fun _ => 1800000000000 } tokenManager
      emptyWorld).w.log = loginCalls emptyWorld.log :=
  ⟨by decide,
    (checkAPIAuth_ok_token { quietEnv with clock := fun _ => 1800000000000 } tokenManager
      emptyWorld (by decide)).elim (fun h => h.2.2.1) (fun h => absurd h.1 (by decide)),
    by decide⟩

/-! ## Responses outside 200..299 (C3) -/

/-- C3. Whenever the server's answer to the request has a status below 200 or above
299, then for every declared content type, body and target `sendRequest` returns a
non-nil error and the caller's target is returned as it was given, nothing having
been decoded into it. When the request was actually sent (token check and request
construction succeeded) the error is the one built from the error body. -/
theorem sendRequest_error_status {τ : Type} (env : Env) (dec : Decoder τ) (m : DNSManager)
    (method : String) (reqType : requestType) (apiEntry : String) (body : Body)
    (respStruct : Option τ) (isAuthRequest : Bool) (w : World)
    (status : Int) (ct body_resp : String)
    (htr : env.transport (buildRequest (tokenCheck (checkAPIAuth env) isAuthRequest m w).m method
      reqType apiEntry body isAuthRequest) = Outcome.response status ct body_resp)
    (hst : status < 200 ∨ 299 < status) :
    (sendRequest env dec m method reqType apiEntry body respStruct isAuthRequest w).err ≠ none ∧
    (sendRequest env dec m method reqType apiEntry body respStruct isAuthRequest w).respStruct
      = respStruct ∧
    ((tokenCheck (checkAPIAuth env) isAuthRequest m w).err = none →
      env.newRequestErr method (HOST ++ apiEntry) = none →
      (sendRequest env dec m method reqType apiEntry body respStruct isAuthRequest w).err
        = some (errorResponse env status ct body_resp)) := by
  unfold sendRequest sendRequestWith
  split
  · rename_i err herr
    refine ⟨by simp, rfl, fun h => ?_⟩
    rw [h] at herr; cases herr
  · split
    · rename_i err herr
      refine ⟨by simp, rfl, fun _ h => ?_⟩
      rw [h] at herr; cases herr
    · simp only []
      rw [htr]
      simp only []
      have hst2 : status < 200 ∨ status > 299 := hst
      rw [if_pos hst2]
      exact ⟨by simp, rfl, fun _ _ => rfl⟩

/-- C3 at a concrete input: a `text/html` answer with status 500 to the request of
`GetDefaultTTL`; an error is returned and the target keeps its value `7`. -/
theorem sendRequest_error_status_witness :
    (sendRequest (htmlEnv 500) (htmlEnv 500).ttl.structTarget tokenManager "GET"
      requestType.REQUEST_CT_TEXT (getAPICmdEntry "svc" "example.ru" ++ METH_TTL) Body.nil
      (some ⟨7⟩) false emptyWorld).err ≠ none ∧
    (sendRequest (htmlEnv 500) (htmlEnv 500).ttl.structTarget tokenManager "GET"
      requestType.REQUEST_CT_TEXT (getAPICmdEntry "svc" "example.ru" ++ METH_TTL) Body.nil
      (some ⟨7⟩) false emptyWorld).respStruct = some ⟨7⟩ :=
  ⟨(sendRequest_error_status (htmlEnv 500) (htmlEnv 500).ttl.structTarget tokenManager "GET"
      requestType.REQUEST_CT_TEXT (getAPICmdEntry "svc" "example.ru" ++ METH_TTL) Body.nil
      (some ⟨7⟩) false emptyWorld 500 "text/html" "<html></html>" (by decide) (by decide)).1,
   (sendRequest_error_status (htmlEnv 500) (htmlEnv 500).ttl.structTarget tokenManager "GET"
      requestType.REQUEST_CT_TEXT (getAPICmdEntry "svc" "example.ru" ++ METH_TTL) Body.nil
      (some ⟨7⟩) false emptyWorld 500 "text/html" "<html></html>" (by decide) (by decide)).2.1⟩

/-! ## Unsupported content type on a success response (C4) -/

/-- C4 as stated fails when the caller supplies no target. `Commit` passes `nil` as
`respStruct`; the server answers 200 with content type `text/html`, which contains
none of `application/json`, `text/xml`, `text/plain`; `sendRequest` returns a nil
error, and so does `Commit`. -/
theorem sendRequest_nil_target_ignores_content_type :
    stringsIndex "text/html" CONTENT_TYPE_JSON < 0 ∧
    stringsIndex "text/html" CONTENT_TYPE_XML < 0 ∧
    stringsIndex "text/html" CONTENT_TYPE_TXT < 0 ∧
    (htmlEnv 200).transport (buildRequest tokenManager "POST" requestType.REQUEST_CT_TEXT
      (getAPICmdEntry "svc" "example.ru" ++ METH_COMMIT) Body.nil false)
      = Outcome.response 200 "text/html" "<html></html>" ∧
    (sendRequest (htmlEnv 200) noTarget tokenManager "POST" requestType.REQUEST_CT_TEXT
      (getAPICmdEntry "svc" "example.ru" ++ METH_COMMIT) Body.nil none false emptyWorld).err = none ∧
    (Commit (htmlEnv 200) tokenManager emptyWorld).err = none := by
  decide

/-- C4, amended. For every response that was received (token check and request
construction succeeded) with status in 200..299 and a declared `Content-Type`
containing none of `application/json`, `text/xml`, `text/plain`: when the caller
supplied a target, `sendRequest` returns the content-type-not-supported error; when
the caller supplied none (`nil`), it returns a nil error, the body being discarded;
in both cases nothing is decoded, the target is returned as given. -/
theorem sendRequest_unsupported_content_type {τ : Type} (env : Env) (dec : Decoder τ)
    (m : DNSManager) (method : String) (reqType : requestType) (apiEntry : String) (body : Body)
    (respStruct : Option τ) (isAuthRequest : Bool) (w : World) (status : Int)
    (ct body_resp : String)
    (hauth : (tokenCheck (checkAPIAuth env) isAuthRequest m w).err = none)
    (hnew : env.newRequestErr method (HOST ++ apiEntry) = none)
    (htr : env.transport (buildRequest (tokenCheck (checkAPIAuth env) isAuthRequest m w).m method
      reqType apiEntry body isAuthRequest) = Outcome.response status ct body_resp)
    (hst : 200 ≤ status ∧ status ≤ 299)
    (hjson : stringsIndex ct CONTENT_TYPE_JSON < 0)
    (hxml : stringsIndex ct CONTENT_TYPE_XML < 0)
    (htxt : stringsIndex ct CONTENT_TYPE_TXT < 0) :
    (respStruct ≠ none →
      (sendRequest env dec m method reqType apiEntry body respStruct isAuthRequest w).err
        = some ("body content type " ++ ct ++ " not supported. HTTP status: " ++ fmtInt status)) ∧
    (respStruct = none →
      (sendRequest env dec m method reqType apiEntry body respStruct isAuthRequest w).err = none) ∧
    (sendRequest env dec m method reqType apiEntry body respStruct isAuthRequest w).respStruct
      = respStruct := by
  unfold sendRequest sendRequestWith
  rw [hauth]
  simp only []
  rw [hnew]
  simp only []
  rw [htr]
  simp only []
  rw [if_neg (by omega)]
  cases respStruct with
  | none => simp
  | some target =>
    have hdec : decodeInto dec status ct body_resp target
        = (target, some ("body content type " ++ ct ++ " not supported. HTTP status: " ++
            fmtInt status)) := by
      unfold decodeInto
      rw [if_neg (by omega), if_neg (by omega), if_neg (by omega)]
    simp only []
    rw [hdec]
    simp

/-- C4, amended, at a concrete input: a `text/html` answer with status 200 to the
request of `GetDefaultTTL`, whose target is a struct. -/
theorem sendRequest_unsupported_content_type_witness :
    (sendRequest (htmlEnv 200) (htmlEnv 200).ttl.structTarget tokenManager "GET"
      requestType.REQUEST_CT_TEXT (getAPICmdEntry "svc" "example.ru" ++ METH_TTL) Body.nil
      (some ⟨7⟩) false emptyWorld).err
      = some ("body content type " ++ "text/html" ++ " not supported. HTTP status: " ++ fmtInt 200) :=
  (sendRequest_unsupported_content_type (htmlEnv 200) (htmlEnv 200).ttl.structTarget tokenManager
    "GET" requestType.REQUEST_CT_TEXT (getAPICmdEntry "svc" "example.ru" ++ METH_TTL) Body.nil
    (some ⟨7⟩) false emptyWorld 200 "text/html" "<html></html>" (by decide) (by decide)
    (by decide) (by decide) (by decide) (by decide) (by decide)).1 (by simp)

/-! ## Error codes of an XML error body (C5) -/

/-- Attributes are assigned in document order. -/
theorem assignCode_append (a b : List (String × String)) (code : String) :
    assignCode (a ++ b) code = assignCode b (assignCode a code) := by
  induction a generalizing code with
  | nil => rfl
  | cons kv rest ih =>
    obtain ⟨k, v⟩ := kv
    simp [assignCode, ih]

/-- Attributes other than `code` leave `Code` as it is. -/
theorem assignCode_no_code (a : List (String × String)) (code : String)
    (h : ∀ kv ∈ a, kv.1 ≠ "code") : assignCode a code = code := by
  induction a generalizing code with
  | nil => rfl
  | cons kv rest ih =>
    obtain ⟨k, v⟩ := kv
    have hk : k ≠ "code" := h (k, v) (List.mem_cons_self _ _)
    simp only [assignCode, if_neg hk]
    exact ih code (fun kv hkv => h kv (List.mem_cons_of_mem _ hkv))

/-- The `code` attribute of an element: the value stored in `Code`. -/
theorem assignCode_attr (apre apost : List (String × String)) (c code : String)
    (h : ∀ kv ∈ apost, kv.1 ≠ "code") :
    assignCode (apre ++ ("code", c) :: apost) code = c := by
  rw [assignCode_append]
  simp only [assignCode, if_true]
  exact assignCode_no_code apost c h

/-- The content of an `errors` element is decoded item by item. -/
theorem unmarshalErrorEntry_append (a b : List XmlNode) (e : APIErrorEntry) :
    unmarshalErrorEntry (a ++ b) e = unmarshalErrorEntry b (unmarshalErrorEntry a e) := by
  induction a generalizing e with
  | nil => rfl
  | cons n rest ih =>
    cases n with
    | text d => simp [unmarshalErrorEntry, ih]
    | elem name attrs children =>
      simp only [List.cons_append, unmarshalErrorEntry]
      split
      · exact ih _
      · split
        · exact ih _
        · exact ih _

/-- Items other than `error` elements leave the `Error` field as it is. -/
theorem unmarshalErrorEntry_no_error (post : List XmlNode) (e : APIErrorEntry)
    (h : ∀ a ch, XmlNode.elem "error" a ch ∉ post) :
    (unmarshalErrorEntry post e).Error = e.Error := by
  induction post generalizing e with
  | nil => rfl
  | cons n rest ih =>
    have hrest : ∀ a ch, XmlNode.elem "error" a ch ∉ rest :=
      fun a ch hm => h a ch (List.mem_cons_of_mem _ hm)
    cases n with
    | text d => simp only [unmarshalErrorEntry]; exact ih e hrest
    | elem name attrs children =>
      simp only [unmarshalErrorEntry]
      split
      · rename_i hn
        exact absurd (hn ▸ List.mem_cons_self _ _) (h attrs children)
      · split
        · rw [ih _ hrest]
        · exact ih e hrest

/-- The `Code` of an entry is the `code` attribute of the last `error` child of its
`errors` element. -/
theorem unmarshalErrorEntry_code (pre post ech : List XmlNode)
    (apre apost : List (String × String)) (c : String) (e : APIErrorEntry)
    (hpost : ∀ a ch, XmlNode.elem "error" a ch ∉ post)
    (hattr : ∀ kv ∈ apost, kv.1 ≠ "code") :
    (unmarshalErrorEntry (pre ++ XmlNode.elem "error" (apre ++ ("code", c) :: apost) ech :: post)
      e).Error.Code = c := by
  rw [unmarshalErrorEntry_append]
  simp only [unmarshalErrorEntry, if_true]
  rw [unmarshalErrorEntry_no_error _ _ hpost]
  simp only [unmarshalErrorDetail]
  exact assignCode_attr apre apost c _ hattr

/-- Decoding the content of the root only appends to `Errors`. -/
theorem unmarshalErrorFields_mono (children : List XmlNode) (b : APIResponseError)
    (e : APIErrorEntry) (h : e ∈ b.Errors) : e ∈ (unmarshalErrorFields children b).Errors := by
  induction children generalizing b with
  | nil => exact h
  | cons n rest ih =>
    cases n with
    | text d => simp only [unmarshalErrorFields]; exact ih b h
    | elem name attrs ch =>
      simp only [unmarshalErrorFields]
      split
      · exact ih _ h
      · split
        · exact ih _ (List.mem_append_left _ h)
        · exact ih b h

/-- Every `errors` child of the root has its entry in `Errors`. -/
theorem unmarshalErrorFields_mem (children : List XmlNode) (b : APIResponseError)
    (attrs : List (String × String)) (ch : List XmlNode)
    (h : XmlNode.elem "errors" attrs ch ∈ children) :
    unmarshalErrorEntry ch ⟨⟨"", ""⟩, ""⟩ ∈ (unmarshalErrorFields children b).Errors := by
  induction children generalizing b with
  | nil => cases h
  | cons n rest ih =>
    rcases List.mem_cons.mp h with heq | hmem
    · subst heq
      simp only [unmarshalErrorFields]
      rw [if_neg (by decide)]
      simp only [if_true]
      exact unmarshalErrorFields_mono _ _ _ (List.mem_append_right _ (List.mem_singleton_self _))
    · cases n with
      | text d => simp only [unmarshalErrorFields]; exact ih b hmem
      | elem name attrs1 ch1 =>
        simp only [unmarshalErrorFields]
        split
        · exact ih _ hmem
        · split
          · exact ih _ hmem
          · exact ih b hmem

/-- The loop of `String` only appends to the builder. -/
theorem writeErrors_extends (es : List APIErrorEntry) (i : Nat) (acc : String) :
    acc.data <+: (writeErrors es i acc).data := by
  induction es generalizing i acc with
  | nil => exact List.prefix_refl _
  | cons e rest ih =>
    simp only [writeErrors]
    refine List.IsPrefix.trans ?_ (ih _ _)
    split
    · simp [String.data_append, List.append_assoc]
    · simp [String.data_append]

/-- The loop of `String` writes the rendering of every entry. -/
theorem writeErrors_contains (es : List APIErrorEntry) (i : Nat) (acc : String)
    (e : APIErrorEntry) (h : e ∈ es) : e.render.data <:+: (writeErrors es i acc).data := by
  induction es generalizing i acc with
  | nil => cases h
  | cons e0 rest ih =>
    simp only [writeErrors]
    rcases List.mem_cons.mp h with heq | hmem
    · subst heq
      refine List.IsInfix.trans ?_ (writeErrors_extends rest _ _).isInfix
      rw [String.data_append]
      exact (List.suffix_append _ _).isInfix
    · exact ih _ _ hmem

/-- The rendering of an entry ends with its code between parentheses. -/
theorem render_contains_code (e : APIErrorEntry) :
    ("(" ++ e.Error.Code ++ ")").data <:+: e.render.data := by
  unfold APIErrorEntry.render
  simp only [String.data_append]
  refine ⟨(if e.Validator ≠ "" then e.Error.Descr ++ ", validator-output: " ++ e.Validator
      else e.Error.Descr).data ++ " ".data, [], ?_⟩
  simp [List.append_assoc]

/-- The text of `String` shows the code of every entry between parentheses. -/
theorem String_contains_code (b : APIResponseError) (e : APIErrorEntry) (h : e ∈ b.Errors) :
    0 ≤ stringsIndex b.String ("(" ++ e.Error.Code ++ ")") := by
  rw [stringsIndex_nonneg]
  unfold APIResponseError.String
  have hne : b.Errors.isEmpty = false := by
    cases hb : b.Errors with
    | nil => rw [hb] at h; cases h
    | cons _ _ => rfl
  rw [hne]
  simp only [Bool.false_eq_true, if_false]
  exact List.IsInfix.trans (render_contains_code e) (writeErrors_contains _ _ _ e h)

/-- C5 as stated fails, first of all at its own example. The body
`<response><status>fail</status><errors><error><error code="55">no domain</error></error></errors></response>`
sent with status 404 and content type `text/xml` makes `GetDefaultTTL` return the
error `errors:  ()`, which does not contain `(55)`: the `error` element carrying the
code lies inside another `error` element, whose content other than character data
is skipped. It also fails when one `errors` element lists two `error` elements, as
in `<errors><error code="1">a</error><error code="2">b</error></errors>`: the field
`Error` is a single struct, the second element overwrites the first, and the error
is `errors: b (2)`, without `(1)`. -/
theorem xml_error_codes_not_all_rendered :
    (GetDefaultTTL (xmlErrorEnv nestedErrorBody nestedErrorDoc) tokenManager emptyWorld).err
      = some "errors:  ()" ∧
    stringsIndex "errors:  ()" "(55)" < 0 ∧
    (GetDefaultTTL (xmlErrorEnv siblingErrorBody siblingErrorDoc) tokenManager emptyWorld).err
      = some "errors: b (2)" ∧
    stringsIndex "errors: b (2)" "(1)" < 0 := by
  decide

/-- C5, amended. For every response that was received with a status outside 200..299
and a content type that contains `text/xml` and not `application/json`, whose body is
a well-formed document with root `response`: for every `errors` element directly
under the root, the error returned by `sendRequest` contains `(c)` where `c` is the
`code` attribute of the last `error` element directly inside that `errors` element.
Codes of earlier `error` siblings and of `error` elements nested deeper are not
promised. -/
theorem sendRequest_xml_error_code {τ : Type} (env : Env) (dec : Decoder τ) (m : DNSManager)
    (method : String) (reqType : requestType) (apiEntry : String) (body : Body)
    (respStruct : Option τ) (isAuthRequest : Bool) (w : World)
    (status : Int) (ct body_resp : String) (root : XmlElement)
    (eattrs apre apost : List (String × String)) (pre post ech : List XmlNode) (c : String)
    (hauth : (tokenCheck (checkAPIAuth env) isAuthRequest m w).err = none)
    (hnew : env.newRequestErr method (HOST ++ apiEntry) = none)
    (htr : env.transport (buildRequest (tokenCheck (checkAPIAuth env) isAuthRequest m w).m method
      reqType apiEntry body isAuthRequest) = Outcome.response status ct body_resp)
    (hst : status < 200 ∨ 299 < status)
    (hjson : stringsIndex ct CONTENT_TYPE_JSON < 0)
    (hxml : 0 ≤ stringsIndex ct CONTENT_TYPE_XML)
    (hparse : env.xmlParse body_resp = Except.ok root)
    (hroot : root.name = "response")
    (herrors : XmlNode.elem "errors" eattrs
      (pre ++ XmlNode.elem "error" (apre ++ ("code", c) :: apost) ech :: post) ∈ root.children)
    (hpost : ∀ a ch, XmlNode.elem "error" a ch ∉ post)
    (hattr : ∀ kv ∈ apost, kv.1 ≠ "code") :
    ∃ text : String,
      (sendRequest env dec m method reqType apiEntry body respStruct isAuthRequest w).err
        = some text ∧
      0 ≤ stringsIndex text ("(" ++ c ++ ")") := by
  have herr : (sendRequest env dec m method reqType apiEntry body respStruct isAuthRequest w).err
      = some (errorResponse env status ct body_resp) := by
    unfold sendRequest sendRequestWith
    rw [hauth]
    simp only []
    rw [hnew]
    simp only []
    rw [htr]
    simp only []
    have hst2 : status < 200 ∨ status > 299 := hst
    rw [if_pos hst2]
  have hresp : errorResponse env status ct body_resp
      = (unmarshalErrorFields root.children
          { XMLName := root.name, Status := "", Errors := [] }).String := by
    unfold errorResponse
    rw [if_neg (by omega), if_pos (by omega)]
    unfold xmlUnmarshalAPIResponseError
    rw [hparse]
    simp only []
    unfold unmarshalAPIResponseError
    rw [if_neg (by simp [hroot])]
  refine ⟨_, herr, ?_⟩
  rw [hresp]
  have hmem := unmarshalErrorFields_mem root.children
    { XMLName := root.name, Status := "", Errors := [] } eattrs _ herrors
  have hcode := unmarshalErrorEntry_code pre post ech apre apost c ⟨⟨"", ""⟩, ""⟩ hpost hattr
  have := String_contains_code _ _ hmem
  rw [hcode] at this
  exact this

/-- C5, amended, at a concrete input: the body
`<response><status>fail</status><errors><error code="55">no domain</error></errors></response>`
yields the error `errors: no domain (55)`, which contains `(55)`. -/
theorem sendRequest_xml_error_code_witness :
    (GetDefaultTTL (xmlErrorEnv flatErrorBody flatErrorDoc) tokenManager emptyWorld).err
      = some "errors: no domain (55)" ∧
    ∃ text : String,
      (sendRequest (xmlErrorEnv flatErrorBody flatErrorDoc)
        (xmlErrorEnv flatErrorBody flatErrorDoc).ttl.structTarget tokenManager "GET"
        requestType.REQUEST_CT_TEXT (getAPICmdEntry "svc" "example.ru" ++ METH_TTL) Body.nil
        (some ⟨0⟩) false emptyWorld).err = some text ∧
      0 ≤ stringsIndex text ("(" ++ "55" ++ ")") :=
  ⟨by decide,
   sendRequest_xml_error_code (xmlErrorEnv flatErrorBody flatErrorDoc)
    (xmlErrorEnv flatErrorBody flatErrorDoc).ttl.structTarget tokenManager "GET"
    requestType.REQUEST_CT_TEXT (getAPICmdEntry "svc" "example.ru" ++ METH_TTL) Body.nil
    (some ⟨0⟩) false emptyWorld 404 "text/xml" flatErrorBody flatErrorDoc
    [] [] [] [] [] [XmlNode.text "no domain"] "55"
    (by decide) (by decide) (by decide) (by decide) (by decide) (by decide) rfl
    (by decide) (List.Mem.tail _ (List.Mem.head _)) (fun _ _ h => nomatch h)
    (fun _ h => nomatch h)⟩

/-! ## Defaults of `Login` (C6) -/

/-- Once the token check and the construction of the request have succeeded, exactly
one request is handed to `client.Do`. -/
theorem sendRequestWith_sent {τ : Type} (checkAuth : DNSManager → World → AuthResult) (env : Env)
    (dec : Decoder τ) (m : DNSManager) (method : String) (reqType : requestType)
    (apiEntry : String) (body : Body) (respStruct : Option τ) (isAuthRequest : Bool) (w : World)
    (hauth : (tokenCheck checkAuth isAuthRequest m w).err = none)
    (hnew : env.newRequestErr method (HOST ++ apiEntry) = none) :
    (sendRequestWith checkAuth env dec m method reqType apiEntry body respStruct isAuthRequest w).w.log
      = (tokenCheck checkAuth isAuthRequest m w).w.log ++
        [Event.request (buildRequest (tokenCheck checkAuth isAuthRequest m w).m method reqType
          apiEntry body isAuthRequest)] := by
  rcases sendRequestWith_log checkAuth env dec m method reqType apiEntry body respStruct
    isAuthRequest w with ⟨hlog, herr⟩ | ⟨_, _, h⟩
  · exfalso
    apply herr
    unfold sendRequestWith at hlog ⊢
    rw [hauth] at hlog ⊢
    simp only [] at hlog ⊢
    rw [hnew] at hlog ⊢
    simp only [] at hlog ⊢
    split at hlog <;> try (split at hlog) <;> try (split at hlog)
    all_goals simp [World.record] at hlog
  · exact h

/-- The six fields of the form `Login` submits. -/
theorem loginFields_eq (m : DNSManager) (grantType scope : String) :
    loginFields m grantType scope =
      [("grant_type", grantType), ("password", m.Auth.ContractPwd),
       ("username", m.Auth.ContractLogin), ("client_id", m.Auth.AppLogin),
       ("client_secret", m.Auth.AppPwd), ("scope", scope)] := by
  simp [loginFields, Values.Set]

/-- After `Login` the manager differs from the one `Login` started from in its Token
State only. -/
theorem Login_manager (env : Env) (m : DNSManager) (grantType scope : String) (w : World) :
    (Login env m grantType scope w).m =
      { loginStart env m grantType scope w with
        APIAuth := (Login env m grantType scope w).m.APIAuth } := by
  have hm : (Login env m grantType scope w).m = loginStored (loginSend env m grantType scope w) := by
    unfold Login; split <;> rfl
  have h3 := (sendRequestWith_files (fun m0 w0 => ⟨m0, w0, none⟩) env env.auth.structTarget
    (loginStart env m grantType scope w) "POST" requestType.REQUEST_CT_FORM AUTH_ENTRY
    (Body.form (loginFields (loginStart env m grantType scope w) (effectiveGrantType grantType)
      (effectiveScope scope)))
    (some (loginStart env m grantType scope w).APIAuth) true
    (NewAPIResponseAuth env (loginEntered w grantType scope)).2).2.2
  rw [tokenCheck_auth] at h3
  have h4 : (loginSend env m grantType scope w).m = loginStart env m grantType scope w := h3
  rw [hm]
  simp only [loginStored, h4]

/-- C6. For every manager, `Login` hands exactly one request to `client.Do` (the
request to the authentication endpoint being constructible): a form POST whose
field `grant_type` is `password` when `grantType` is empty and `grantType` itself
otherwise, and whose field `scope` is `.*` when `scope` is empty and `scope` itself
otherwise. The same effective values are stored in the manager's `GrantType` and
`Scope`. -/
theorem Login_submits_defaults (env : Env) (m : DNSManager) (grantType scope : String)
    (w : World) (hnew : env.newRequestErr "POST" (HOST ++ AUTH_ENTRY) = none) :
    (Login env m grantType scope w).w.log = w.log ++
      [Event.login grantType scope,
       Event.request
        { method := "POST", url := HOST ++ AUTH_ENTRY,
          contentType := "application/x-www-form-urlencoded", authorization := none,
          body := Body.form
            [("grant_type", if grantType = "" then "password" else grantType),
             ("password", m.Auth.ContractPwd), ("username", m.Auth.ContractLogin),
             ("client_id", m.Auth.AppLogin), ("client_secret", m.Auth.AppPwd),
             ("scope", if scope = "" then ".*" else scope)] }] ∧
    (Login env m grantType scope w).m.GrantType
      = (if grantType = "" then "password" else grantType) ∧
    (Login env m grantType scope w).m.Scope = (if scope = "" then ".*" else scope) := by
  refine ⟨?_, ?_, ?_⟩
  · rcases Login_log env m grantType scope w with ⟨hlog, _⟩ | ⟨_, h⟩
    · exfalso
      have hsent := sendRequestWith_sent (fun m0 w0 => ⟨m0, w0, none⟩) env env.auth.structTarget
        (loginStart env m grantType scope w) "POST" requestType.REQUEST_CT_FORM AUTH_ENTRY
        (Body.form (loginFields (loginStart env m grantType scope w) (effectiveGrantType grantType)
          (effectiveScope scope)))
        (some (loginStart env m grantType scope w).APIAuth) true
        (NewAPIResponseAuth env (loginEntered w grantType scope)).2 (by simp [tokenCheck]) hnew
      have hl : (Login env m grantType scope w).w.log = (loginSend env m grantType scope w).w.log := by
        unfold Login
        split
        · rfl
        · exact (SaveToJSONFile_log _ _ _ _).1
      rw [hl] at hlog
      have hsend : (loginSend env m grantType scope w).w.log = _ := hsent
      rw [hsend, tokenCheck_auth] at hlog
      simp [NewAPIResponseAuth, timeNow, loginEntered, World.record] at hlog
    · rw [h, loginFields_eq]
      simp [buildRequest, requestContentType, loginStart, effectiveGrantType, effectiveScope]
  · rw [Login_manager]; simp [loginStart, effectiveGrantType]
  · rw [Login_manager]; simp [loginStart, effectiveScope]

/-- C6 at a concrete input: `Login("", "")`, as in `TestLogin`, submits
`grant_type = password` and `scope = .*` and stores both in the manager. -/
theorem Login_submits_defaults_witness :
    (Login quietEnv tokenManager "" "" emptyWorld).w.log =
      [Event.login "" "",
       Event.request
        { method := "POST", url := "https://api.nic.ru/oauth/token",
          contentType := "application/x-www-form-urlencoded", authorization := none,
          body := Body.form
            [("grant_type", "password"), ("password", "user-secret"), ("username", "user"),
             ("client_id", "app"), ("client_secret", "app-secret"), ("scope", ".*")] }] ∧
    (Login quietEnv tokenManager "" "" emptyWorld).m.GrantType = "password" ∧
    (Login quietEnv tokenManager "" "" emptyWorld).m.Scope = ".*" :=
  Login_submits_defaults quietEnv tokenManager "" "" emptyWorld (by decide)

/-! ## The Token State after a failed `Login` (C7) -/

/-- The target after `sendRequest`: it is returned as given, unless a response with
a status in 200..299 arrived and a decoder was applied to it. -/
theorem sendRequestWith_respStruct {τ : Type} (checkAuth : DNSManager → World → AuthResult)
    (env : Env) (dec : Decoder τ) (m : DNSManager) (method : String) (reqType : requestType)
    (apiEntry : String) (body : Body) (respStruct : Option τ) (isAuthRequest : Bool) (w : World) :
    (sendRequestWith checkAuth env dec m method reqType apiEntry body respStruct
      isAuthRequest w).respStruct = respStruct ∨
    ∃ (status : Int) (ct body_resp : String) (target : τ),
      env.transport (buildRequest (tokenCheck checkAuth isAuthRequest m w).m method reqType
        apiEntry body isAuthRequest) = Outcome.response status ct body_resp ∧
      200 ≤ status ∧ status ≤ 299 ∧ respStruct = some target ∧
      (sendRequestWith checkAuth env dec m method reqType apiEntry body respStruct
        isAuthRequest w).respStruct = some (decodeInto dec status ct body_resp target).1 ∧
      (sendRequestWith checkAuth env dec m method reqType apiEntry body respStruct
        isAuthRequest w).err = (decodeInto dec status ct body_resp target).2 := by
  unfold sendRequestWith
  split
  · left; rfl
  · split
    · left; rfl
    · simp only []
      split
      · left; rfl
      · left; rfl
      · rename_i status ct body_resp htr
        split
        · left; rfl
        · rename_i hst
          split
          · left; rfl
          · rename_i target
            right
            exact ⟨status, ct, body_resp, target, htr, by omega, by omega, rfl, rfl, rfl⟩

/-- A `Login` that returns an error writes no file. -/
theorem Login_files_of_error (env : Env) (m : DNSManager) (grantType scope : String) (w : World)
    (h : (Login env m grantType scope w).err ≠ none) :
    (Login env m grantType scope w).w.files = w.files := by
  have hf := (sendRequestWith_files (fun m0 w0 => ⟨m0, w0, none⟩) env env.auth.structTarget
    (loginStart env m grantType scope w) "POST" requestType.REQUEST_CT_FORM AUTH_ENTRY
    (Body.form (loginFields (loginStart env m grantType scope w) (effectiveGrantType grantType)
      (effectiveScope scope)))
    (some (loginStart env m grantType scope w).APIAuth) true
    (NewAPIResponseAuth env (loginEntered w grantType scope)).2).1
  rw [tokenCheck_auth] at hf
  have hf2 : (loginSend env m grantType scope w).w.files = w.files := by
    rw [show (loginSend env m grantType scope w).w.files = _ from hf]
    simp [NewAPIResponseAuth, timeNow, loginEntered, World.record]
  unfold Login at h ⊢
  split
  · exact hf2
  · rename_i herr
    rw [herr] at h
    simp at h

/-- C7 as stated fails. The manager holds the token `T` (lifetime 3600, refresh token
`R`); the network is down, so `Login` returns the transport error; after the call
the Token State is the empty one `Login` installs in its first statement, not the
one held before. -/
theorem Login_error_resets_token :
    (Login quietEnv tokenManager "" "" emptyWorld).err = some "dial tcp: connection refused" ∧
    tokenManager.APIAuth = ⟨"T", 3600, "R", 0⟩ ∧
    (Login quietEnv tokenManager "" "" emptyWorld).m.APIAuth = ⟨"", 0, "", 0⟩ ∧
    (Login quietEnv tokenManager "" "" emptyWorld).m.APIAuth ≠ tokenManager.APIAuth := by
  decide

/-- C7, amended. For every `Login` call that returns an error, nothing is persisted
(the files are as before the call), and the in-memory Token State is not the one
held before but the fresh one `Login` installs first: empty, stamped with the
current time. It is exactly that fresh state after a transport failure or a status
outside 200..299; after a decode failure on a response with status in 200..299 it
is the fresh state as the failing decoder left it. -/
theorem Login_error_state (env : Env) (m : DNSManager) (grantType scope : String) (w : World)
    (h : (Login env m grantType scope w).err ≠ none) :
    (Login env m grantType scope w).w.files = w.files ∧
    ((Login env m grantType scope w).m.APIAuth = ⟨"", 0, "", env.clock w.ticks⟩ ∨
      ∃ (status : Int) (ct body_resp : String),
        env.transport (loginRequest env m grantType scope w)
          = Outcome.response status ct body_resp ∧
        200 ≤ status ∧ status ≤ 299 ∧
        (decodeInto env.auth.structTarget status ct body_resp ⟨"", 0, "", env.clock w.ticks⟩).2
          ≠ none ∧
        (Login env m grantType scope w).m.APIAuth =
          (decodeInto env.auth.structTarget status ct body_resp
            ⟨"", 0, "", env.clock w.ticks⟩).1) := by
  refine ⟨Login_files_of_error env m grantType scope w h, ?_⟩
  have hm : (Login env m grantType scope w).m = loginStored (loginSend env m grantType scope w) := by
    unfold Login; split <;> rfl
  have he : (Login env m grantType scope w).err = (loginSend env m grantType scope w).err := by
    unfold Login
    split
    · rename_i err herr; rw [herr]
    · rename_i herr; rw [herr]
  rw [he] at h
  rw [hm]
  rcases sendRequestWith_respStruct (fun m0 w0 => ⟨m0, w0, none⟩) env env.auth.structTarget
    (loginStart env m grantType scope w) "POST" requestType.REQUEST_CT_FORM AUTH_ENTRY
    (Body.form (loginFields (loginStart env m grantType scope w) (effectiveGrantType grantType)
      (effectiveScope scope)))
    (some (loginStart env m grantType scope w).APIAuth) true
    (NewAPIResponseAuth env (loginEntered w grantType scope)).2 with
    hsame | ⟨status, ct, body_resp, target, htr, h1, h2, htarget, hres, herr⟩
  · left
    have hs : (loginSend env m grantType scope w).respStruct
        = some (loginStart env m grantType scope w).APIAuth := hsame
    simp only [loginStored, hs, Option.getD_some]
    exact loginStart_APIAuth env m grantType scope w
  · right
    rw [tokenCheck_auth] at htr
    have ht : target = ⟨"", 0, "", env.clock w.ticks⟩ := by
      rw [← loginStart_APIAuth env m grantType scope w]
      exact (Option.some.inj htarget).symm
    subst ht
    have hs : (loginSend env m grantType scope w).respStruct = _ := hres
    have hse : (loginSend env m grantType scope w).err = _ := herr
    refine ⟨status, ct, body_resp, htr, h1, h2, ?_, ?_⟩
    · rw [← hse]; exact h
    · simp only [loginStored, hs, Option.getD_some]

/-- C7, amended, at a concrete input: with the network down, `Login` on
`tokenManager` returns an error, writes no file and leaves the fresh Token State. -/
theorem Login_error_state_witness :
    (Login quietEnv tokenManager "" "" emptyWorld).err ≠ none ∧
    (Login quietEnv tokenManager "" "" emptyWorld).w.files = emptyWorld.files ∧
    (Login quietEnv tokenManager "" "" emptyWorld).m.APIAuth = ⟨"", 0, "", 0⟩ :=
  ⟨by decide,
   (Login_error_state quietEnv tokenManager "" "" emptyWorld (by decide)).1,
   by decide⟩

/-! ## Round trips of a public operation (C8) -/

/-- The log after `checkAPIAuth`: untouched, or one `Login` call with at most the
authentication request; a `Login` that sent nothing returned an error. -/
theorem checkAPIAuth_log (env : Env) (m : DNSManager) (w : World) :
    (checkAPIAuth env m w).w.log = w.log ∨
    (∃ g s, (checkAPIAuth env m w).w.log = w.log ++ [Event.login g s] ∧
      (checkAPIAuth env m w).err ≠ none) ∨
    ∃ g s r, r.url = HOST ++ AUTH_ENTRY ∧
      (checkAPIAuth env m w).w.log = w.log ++ [Event.login g s, Event.request r] := by
  have hlog := (tokenExpired_log env (loadCache env m w).APIAuth w).1
  unfold checkAPIAuth
  simp only []
  by_cases hc : (tokenExpired env (loadCache env m w).APIAuth w).1 = true
  · rw [if_pos hc]
    right
    rcases Login_log env (loadCache env m w) (loadCache env m w).GrantType
      (loadCache env m w).Scope (tokenExpired env (loadCache env m w).APIAuth w).2 with
      ⟨h, he⟩ | ⟨_, h⟩
    · left; exact ⟨_, _, by rw [h, hlog], he⟩
    · right
      exact ⟨_, _, buildRequest (loginStart env (loadCache env m w) (loadCache env m w).GrantType
        (loadCache env m w).Scope (tokenExpired env (loadCache env m w).APIAuth w).2) "POST"
        requestType.REQUEST_CT_FORM AUTH_ENTRY _ true, rfl, by rw [h, hlog]⟩
  · rw [if_neg hc]
    left; exact hlog

/-- When the token check or the construction of the request fails, `sendRequest`
adds nothing to the log of the token check and returns an error. -/
theorem sendRequestWith_not_sent {τ : Type} (checkAuth : DNSManager → World → AuthResult)
    (env : Env) (dec : Decoder τ) (m : DNSManager) (method : String) (reqType : requestType)
    (apiEntry : String) (body : Body) (respStruct : Option τ) (isAuthRequest : Bool) (w : World)
    (h : ¬ ((tokenCheck checkAuth isAuthRequest m w).err = none ∧
      env.newRequestErr method (HOST ++ apiEntry) = none)) :
    (sendRequestWith checkAuth env dec m method reqType apiEntry body respStruct
      isAuthRequest w).w.log = (tokenCheck checkAuth isAuthRequest m w).w.log ∧
    (sendRequestWith checkAuth env dec m method reqType apiEntry body respStruct
      isAuthRequest w).err ≠ none := by
  unfold sendRequestWith
  split
  · exact ⟨rfl, by simp⟩
  · rename_i hauth
    split
    · exact ⟨rfl, by simp⟩
    · rename_i hnew
      exact absurd ⟨hauth, hnew⟩ h

/-- One call of `sendRequest` for an API path adds the events of `RoundTrips`: the
API request is sent exactly when the token check and the construction of the request
succeed. -/
theorem sendRequest_roundTrips {τ : Type} (env : Env) (dec : Decoder τ) (m : DNSManager)
    (method : String) (reqType : requestType) (apiEntry : String) (body : Body)
    (respStruct : Option τ) (w : World) :
    RoundTrips w.log (sendRequest env dec m method reqType apiEntry body respStruct false w).w.log
      (sendRequest env dec m method reqType apiEntry body respStruct false w).err
      (HOST ++ apiEntry)
      ((checkAPIAuth env m w).err = none ∧
        env.newRequestErr method (HOST ++ apiEntry) = none) := by
  have htc : tokenCheck (checkAPIAuth env) false m w = checkAPIAuth env m w := by
    simp [tokenCheck]
  have hpre := checkAPIAuth_log env m w
  unfold sendRequest
  by_cases hsent : (checkAPIAuth env m w).err = none ∧
      env.newRequestErr method (HOST ++ apiEntry) = none
  · have hlog := sendRequestWith_sent (checkAPIAuth env) env dec m method reqType apiEntry body
      respStruct false w (by rw [htc]; exact hsent.1) hsent.2
    rw [htc] at hlog
    rcases hpre with h | ⟨g, s, _, he⟩ | ⟨g, s, r, hr, h⟩
    · exact ⟨[], [Event.request (buildRequest (checkAPIAuth env m w).m method reqType apiEntry
        body false)], by simp [hlog, h], Or.inl rfl, Or.inr ⟨_, rfl, rfl⟩, fun _ => by simp,
        ⟨fun _ => hsent, fun _ => by simp⟩⟩
    · exact absurd hsent.1 he
    · exact ⟨[Event.login g s, Event.request r], [Event.request (buildRequest
        (checkAPIAuth env m w).m method reqType apiEntry body false)], by simp [hlog, h],
        Or.inr (Or.inr ⟨g, s, r, rfl, hr⟩), Or.inr ⟨_, rfl, rfl⟩, fun _ => by simp,
        ⟨fun _ => hsent, fun _ => by simp⟩⟩
  · obtain ⟨hlog, herr⟩ := sendRequestWith_not_sent (checkAPIAuth env) env dec m method reqType
      apiEntry body respStruct false w (by rw [htc]; exact hsent)
    rw [htc] at hlog
    rcases hpre with h | ⟨g, s, h, _⟩ | ⟨g, s, r, hr, h⟩
    · exact ⟨[], [], by simp [hlog, h], Or.inl rfl, Or.inl rfl, fun he => absurd he herr,
        ⟨fun hp => absurd rfl hp, fun hs => absurd hs hsent⟩⟩
    · exact ⟨[Event.login g s], [], by simp [hlog, h], Or.inr (Or.inl ⟨⟨g, s, rfl⟩, rfl⟩),
        Or.inl rfl, fun he => absurd he herr,
        ⟨fun hp => absurd rfl hp, fun hs => absurd hs hsent⟩⟩
    · exact ⟨[Event.login g s, Event.request r], [], by simp [hlog, h],
        Or.inr (Or.inr ⟨g, s, r, rfl, hr⟩), Or.inl rfl, fun he => absurd he herr,
        ⟨fun hp => absurd rfl hp, fun hs => absurd hs hsent⟩⟩

/-- The events of `RoundTrips` under an equivalent condition of sending. -/
theorem RoundTrips_congr (before after : List Event) (err : Option String) (url : String)
    (sent sent1 : Prop) (hiff : sent ↔ sent1) (h : RoundTrips before after err url sent) :
    RoundTrips before after err url sent1 := by
  obtain ⟨pre, post, h1, h2, h3, h4, h5⟩ := h
  exact ⟨pre, post, h1, h2, h3, h4, h5.trans hiff⟩

/-- Every path built by `getAPICmdEntry` lies under the API entry. -/
theorem getAPICmdEntry_suffix_under_api (service zone suffix : String) :
    API_ENTRY.data <+: (getAPICmdEntry service zone ++ suffix).data := by
  refine ⟨(("/services/" ++ service) ++ ("/zones/" ++ zone) ++ suffix).data, ?_⟩
  simp only [getAPICmdEntry, String.data_append, List.append_assoc]

/-- The path built by `getAPICmdEntry` itself lies under the API entry. -/
theorem getAPICmdEntry_under_api (service zone : String) :
    API_ENTRY.data <+: (getAPICmdEntry service zone).data := by
  refine ⟨(("/services/" ++ service) ++ ("/zones/" ++ zone)).data, ?_⟩
  simp only [getAPICmdEntry, String.data_append, List.append_assoc]

/-- The path of every public operation lies under the API entry. -/
theorem operationEntry_under_api (m : DNSManager) (op : Operation) :
    (HOST ++ API_ENTRY).data <+: (HOST ++ operationEntry m op).data := by
  have key : API_ENTRY.data <+: (operationEntry m op).data := by
    cases op with
    | GetZones => exact getAPICmdEntry_under_api _ _
    | GetFile => exact getAPICmdEntry_under_api _ _
    | PutFile _ => exact getAPICmdEntry_under_api _ _
    | GetRevision n =>
      have := getAPICmdEntry_suffix_under_api m.Service m.Zone (METH_REVIS ++ ("/" ++ fmtInt n))
      simpa [operationEntry, String.append_assoc] using this
    | SetRevision n =>
      have := getAPICmdEntry_suffix_under_api m.Service m.Zone (METH_REVIS ++ ("/" ++ fmtInt n))
      simpa [operationEntry, String.append_assoc] using this
    | DeleteZoneRecord recordId =>
      have := getAPICmdEntry_suffix_under_api m.Service m.Zone (METH_REC ++ ("/" ++ recordId))
      simpa [operationEntry, String.append_assoc] using this
    | _ => exact getAPICmdEntry_suffix_under_api _ _ _
  obtain ⟨t, ht⟩ := key
  exact ⟨t, by simp only [String.data_append, ← ht, List.append_assoc]⟩

/-- C8 as stated fails when the login fails. A manager without a token calls
`GetDefaultTTL` while the network is down: the token check calls `Login`, the one
request sent is the one to the authentication endpoint, its failure is returned,
and no request goes to the API endpoint, where the claim says exactly one. -/
theorem operation_without_api_request :
    requestsOf (runOperation quietEnv
      (NewDNSManager ⟨"app", "app-secret", "user", "user-secret"⟩ "svc" "example.ru" false)
      emptyWorld Operation.GetDefaultTTL).w.log =
      [{ method := "POST", url := "https://api.nic.ru/oauth/token",
         contentType := "application/x-www-form-urlencoded", authorization := none,
         body := Body.form
           [("grant_type", "password"), ("password", "user-secret"), ("username", "user"),
            ("client_id", "app"), ("client_secret", "app-secret"), ("scope", ".*")] }] ∧
    ((requestsOf (runOperation quietEnv
      (NewDNSManager ⟨"app", "app-secret", "user", "user-secret"⟩ "svc" "example.ru" false)
      emptyWorld Operation.GetDefaultTTL).w.log).filter underAPIEntry).length = 0 ∧
    (runOperation quietEnv
      (NewDNSManager ⟨"app", "app-secret", "user", "user-secret"⟩ "svc" "example.ru" false)
      emptyWorld Operation.GetDefaultTTL).err = some "dial tcp: connection refused" := by
  decide

/-- C8, amended. For every public API operation and every manager state, one call
adds to the log at most one `Login` call with at most one request to the
authentication endpoint, followed by at most one request to the operation's URL,
which lies under the API entry. The API request is sent exactly when the
marshalling of the records (`AddZoneRecord` only), the token check and the
construction of the request all succeed: it is present whenever the operation
returns without error, and absent when one of the three fails. The login never
triggers a further token check or login, and a `Login` that sent no authentication
request is followed by no API request. -/
theorem operation_round_trips (env : Env) (m : DNSManager) (w : World) (op : Operation) :
    RoundTrips w.log (runOperation env m w op).w.log (runOperation env m w op).err
      (HOST ++ operationEntry m op) (operationSent env m w op) ∧
    (HOST ++ API_ENTRY).data <+: (HOST ++ operationEntry m op).data := by
  refine ⟨?_, operationEntry_under_api m op⟩
  have hiff : ∀ (method entry : String),
      (((checkAPIAuth env m w).err = none ∧ env.newRequestErr method (HOST ++ entry) = none) ↔
        ((none : Option String) = none ∧ (checkAPIAuth env m w).err = none ∧
          env.newRequestErr method (HOST ++ entry) = none)) :=
    fun _ _ => ⟨fun h => ⟨rfl, h⟩, fun h => h.2⟩
  cases op with
  | GetDefaultTTL =>
    have h := RoundTrips_congr _ _ _ _ _ _ (hiff _ _)
      (sendRequest_roundTrips env env.ttl.structTarget m "GET" requestType.REQUEST_CT_TEXT
        (getAPICmdEntry m.Service m.Zone ++ METH_TTL) Body.nil (some ⟨0⟩) w)
    simp only [runOperation, OpResult.outcome, GetDefaultTTL, operationSent, operationMarshalErr,
      operationMethod, operationEntry]
    split <;> rename_i herr <;> simpa [herr] using h
  | SetDefaultTTL ttl =>
    exact RoundTrips_congr _ _ _ _ _ _ (hiff _ _)
      (sendRequest_roundTrips env noTarget m "POST" requestType.REQUEST_CT_XML
        (getAPICmdEntry m.Service m.Zone ++ METH_TTL) _ none w)
  | GetZones =>
    have h := RoundTrips_congr _ _ _ _ _ _ (hiff _ _)
      (sendRequest_roundTrips env env.zones.structTarget m "GET"
        requestType.REQUEST_CT_TEXT (getAPICmdEntry m.Service "") Body.nil (some ⟨"", []⟩) w)
    simp only [runOperation, OpResult.outcome, GetZones, operationSent, operationMarshalErr,
      operationMethod, operationEntry]
    split <;> rename_i herr <;> simpa [herr] using h
  | GetFile =>
    have h := RoundTrips_congr _ _ _ _ _ _ (hiff _ _)
      (sendRequest_roundTrips env env.bytes.textTarget m "GET"
        requestType.REQUEST_CT_TEXT (getAPICmdEntry m.Service m.Zone) Body.nil (some "") w)
    simp only [runOperation, OpResult.outcome, GetFile, operationSent, operationMarshalErr,
      operationMethod, operationEntry]
    split <;> rename_i herr <;> simpa [herr] using h
  | PutFile zoneFileData =>
    exact RoundTrips_congr _ _ _ _ _ _ (hiff _ _)
      (sendRequest_roundTrips env noTarget m "POST" requestType.REQUEST_CT_TEXT
        (getAPICmdEntry m.Service m.Zone) _ none w)
  | Rollback =>
    exact RoundTrips_congr _ _ _ _ _ _ (hiff _ _)
      (sendRequest_roundTrips env noTarget m "POST" requestType.REQUEST_CT_TEXT
        (getAPICmdEntry m.Service m.Zone ++ METH_ROLLBACK) _ none w)
  | Commit =>
    exact RoundTrips_congr _ _ _ _ _ _ (hiff _ _)
      (sendRequest_roundTrips env noTarget m "POST" requestType.REQUEST_CT_TEXT
        (getAPICmdEntry m.Service m.Zone ++ METH_COMMIT) _ none w)
  | GetRevisions =>
    have h := RoundTrips_congr _ _ _ _ _ _ (hiff _ _)
      (sendRequest_roundTrips env (revisionsDecoder env) m "GET"
        requestType.REQUEST_CT_TEXT (getAPICmdEntry m.Service m.Zone ++ METH_REVIS) Body.nil
        (some ⟨"", []⟩) w)
    simp only [runOperation, OpResult.outcome, GetRevisions, operationSent, operationMarshalErr,
      operationMethod, operationEntry]
    split <;> rename_i herr <;> simpa [herr] using h
  | GetRevision revisNumber =>
    have h := RoundTrips_congr _ _ _ _ _ _ (hiff _ _)
      (sendRequest_roundTrips env env.text.textTarget m "GET"
        requestType.REQUEST_CT_TEXT
        (getAPICmdEntry m.Service m.Zone ++ METH_REVIS ++ ("/" ++ fmtInt revisNumber)) Body.nil
        (some "") w)
    simp only [runOperation, OpResult.outcome, GetRevision, operationSent, operationMarshalErr,
      operationMethod, operationEntry]
    split <;> rename_i herr <;> simpa [herr] using h
  | SetRevision revisNumber =>
    exact RoundTrips_congr _ _ _ _ _ _ (hiff _ _)
      (sendRequest_roundTrips env noTarget m "POST" requestType.REQUEST_CT_XML
        (getAPICmdEntry m.Service m.Zone ++ METH_REVIS ++ ("/" ++ fmtInt revisNumber)) _ none w)
  | GetZoneRecords =>
    have h := RoundTrips_congr _ _ _ _ _ _ (hiff _ _)
      (sendRequest_roundTrips env env.records.structTarget m "GET"
        requestType.REQUEST_CT_TEXT (getAPICmdEntry m.Service m.Zone ++ METH_REC) Body.nil
        (some ⟨"", []⟩) w)
    simp only [runOperation, OpResult.outcome, GetZoneRecords, operationSent, operationMarshalErr,
      operationMethod, operationEntry]
    split <;> rename_i herr <;> simpa [herr] using h
  | DeleteZoneRecord recordId =>
    exact RoundTrips_congr _ _ _ _ _ _ (hiff _ _)
      (sendRequest_roundTrips env noTarget m "DELETE" requestType.REQUEST_CT_TEXT
        (getAPICmdEntry m.Service m.Zone ++ METH_REC ++ ("/" ++ recordId)) _ none w)
  | AddZoneRecord rec =>
    simp only [runOperation, OpResult.outcome, AddZoneRecord, operationSent,
      operationMarshalErr, operationMethod, operationEntry]
    split
    · rename_i err hmar
      exact ⟨[], [], by simp, Or.inl rfl, Or.inl rfl, fun he => by simp at he,
        ⟨fun hp => absurd rfl hp, fun hs => by simp at hs⟩⟩
    · rename_i rec_b hmar
      exact RoundTrips_congr _ _ _ _ _ _ (hiff _ _)
        (sendRequest_roundTrips env noTarget m "PUT" requestType.REQUEST_CT_TEXT
          (getAPICmdEntry m.Service m.Zone ++ METH_REC) _ none w)

/-! ## The name of the token cache file (C9) -/

/-- A separator that occurs in neither left part splits two equal texts alike. -/
theorem split_at_separator {α : Type} (c : α) (l1 l2 r1 r2 : List α)
    (h1 : c ∉ l1) (h2 : c ∉ l2) (h : l1 ++ c :: r1 = l2 ++ c :: r2) : l1 = l2 ∧ r1 = r2 := by
  induction l1 generalizing l2 with
  | nil =>
    cases l2 with
    | nil => simpa using h
    | cons b t =>
      simp only [List.nil_append, List.cons_append, List.cons.injEq] at h
      exact absurd (h.1 ▸ List.mem_cons_self _ _) h2
  | cons a t ih =>
    cases l2 with
    | nil =>
      simp only [List.nil_append, List.cons_append, List.cons.injEq] at h
      exact absurd (h.1 ▸ List.mem_cons_self _ _) h1
    | cons b t2 =>
      simp only [List.cons_append, List.cons.injEq] at h
      obtain ⟨hab, ht⟩ := h
      have := ih t2 (fun hm => h1 (List.mem_cons_of_mem _ hm))
        (fun hm => h2 (List.mem_cons_of_mem _ hm)) ht
      exact ⟨by rw [hab, this.1], this.2⟩

/-- The characters of the query file name. -/
theorem getQueryFileName_data (m : DNSManager) :
    (getQueryFileName m).data = '~' :: (m.Service.data ++ '-' :: (m.Zone.data ++ ".json".data)) := by
  simp [getQueryFileName, String.data_append]

/-- C9 as stated fails: the name joins service and zone with `-`, which may occur in
either. Service `a-b` with zone `c` and service `a` with zone `b-c` are different
pairs with the same file name `~a-b-c.json`. -/
theorem getQueryFileName_collision :
    getQueryFileName { tokenManager with Service := "a-b", Zone := "c" } = "~a-b-c.json" ∧
    getQueryFileName { tokenManager with Service := "a", Zone := "b-c" } = "~a-b-c.json" ∧
    ¬ (("a-b" : String) = "a" ∧ ("c" : String) = "b-c") := by
  decide

/-- C9, amended. The name returned by `getQueryFileName` depends on the manager's
service and zone only: managers with equal service and zone get equal names. The
converse holds when neither service contains `-`, or when neither zone contains
`-`: then two names are equal iff the services are equal and the zones are equal.
Pairs whose identifiers contain `-` may share a file. -/
theorem getQueryFileName_pair (m1 m2 : DNSManager) :
    (m1.Service = m2.Service → m1.Zone = m2.Zone →
      getQueryFileName m1 = getQueryFileName m2) ∧
    ((('-' ∉ m1.Service.data ∧ '-' ∉ m2.Service.data) ∨
        ('-' ∉ m1.Zone.data ∧ '-' ∉ m2.Zone.data)) →
      (getQueryFileName m1 = getQueryFileName m2 ↔
        m1.Service = m2.Service ∧ m1.Zone = m2.Zone)) := by
  have hfun : m1.Service = m2.Service → m1.Zone = m2.Zone →
      getQueryFileName m1 = getQueryFileName m2 := by
    intro hs hz
    simp [getQueryFileName, hs, hz]
  refine ⟨hfun, fun hdash => ⟨fun heq => ?_, fun h => hfun h.1 h.2⟩⟩
  have hd : (getQueryFileName m1).data = (getQueryFileName m2).data := by rw [heq]
  rw [getQueryFileName_data, getQueryFileName_data] at hd
  have hd2 := List.tail_eq_of_cons_eq hd
  rcases hdash with ⟨h1, h2⟩ | ⟨h1, h2⟩
  · obtain ⟨hs, hz⟩ := split_at_separator '-' _ _ _ _ h1 h2 hd2
    exact ⟨String.ext hs, String.ext (List.append_cancel_right hz)⟩
  · have hd3 : (m1.Service.data ++ '-' :: m1.Zone.data) ++ ".json".data
        = (m2.Service.data ++ '-' :: m2.Zone.data) ++ ".json".data := by
      simpa [List.append_assoc] using hd2
    have hd4 := congrArg List.reverse (List.append_cancel_right hd3)
    simp only [List.reverse_append, List.reverse_cons, List.append_assoc,
      List.singleton_append] at hd4
    obtain ⟨hz, hs⟩ := split_at_separator '-' _ _ _ _
      (by simpa using h1) (by simpa using h2) hd4
    exact ⟨String.ext (List.reverse_injective hs), String.ext (List.reverse_injective hz)⟩

/-- C9, amended, at a concrete input: for the service `svc`, which contains no `-`,
the zones `example.ru` and `example.org` get different cache files. -/
theorem getQueryFileName_pair_witness :
    getQueryFileName tokenManager ≠
      getQueryFileName { tokenManager with Zone := "example.org" } :=
  fun h => absurd
    (((getQueryFileName_pair tokenManager { tokenManager with Zone := "example.org" }).2
      (Or.inl ⟨by decide, by decide⟩)).mp h).2 (by decide)

/-! ## Decoding of the revision list (C10) -/

/-- The ten decimal digit characters and their values. -/
theorem digitChar_spec : ∀ d : Nat, d < 10 →
    (Nat.digitChar d).isDigit = true ∧ (Nat.digitChar d).toNat - 48 = d := by
  decide

/-- A decimal digit is no white space. -/
theorem isDigit_not_space (c : Char) (h : c.isDigit = true) : isSpace c = false := by
  simp only [Char.isDigit, Bool.and_eq_true, decide_eq_true_eq] at h
  have h1 : 48 ≤ c.toNat := by
    have := h.1
    simpa [Char.toNat, UInt32.le_def, Fin.le_def] using this
  have h2 : c.toNat ≤ 57 := by
    have := h.2
    simpa [Char.toNat, UInt32.le_def, Fin.le_def] using this
  unfold isSpace
  simp only [decide_eq_false_iff_not]
  omega

/-- One step of the digit loop on a digit that keeps the value within 64 bits. -/
theorem parseUintDigits_digit (d : Nat) (hd : d < 10) (ds : List Char) (n : Nat)
    (h : n * 10 + d ≤ 18446744073709551615) :
    parseUintDigits (Nat.digitChar d :: ds) n = parseUintDigits ds (n * 10 + d) := by
  have hc := digitChar_spec d hd
  simp only [parseUintDigits, hc.1, if_true, hc.2]
  rw [if_neg (by omega)]

/-- The digits `Nat.toDigitsCore` puts in front of `ds` are read back as `n`. -/
theorem toDigitsCore_value (fuel n : Nat) (ds : List Char) (h : n < fuel)
    (hmax : n ≤ 18446744073709551615) :
    ∃ front : List Char, front ≠ [] ∧ (∀ c ∈ front, c.isDigit = true) ∧
      Nat.toDigitsCore 10 fuel n ds = front ++ ds ∧
      parseUintDigits (front ++ ds) 0 = parseUintDigits ds n := by
  induction fuel generalizing n ds with
  | zero => omega
  | succ fuel ih =>
    have hlt : n % 10 < 10 := Nat.mod_lt _ (by decide)
    have hd := digitChar_spec (n % 10) hlt
    unfold Nat.toDigitsCore
    simp only []
    by_cases h0 : n / 10 = 0
    · rw [if_pos h0]
      refine ⟨[Nat.digitChar (n % 10)], by simp, by simpa using hd.1, rfl, ?_⟩
      have hn : n % 10 = n := Nat.mod_eq_of_lt (by omega)
      rw [List.singleton_append, parseUintDigits_digit _ hlt _ _ (by omega)]
      congr 1
      omega
    · rw [if_neg h0]
      obtain ⟨front, hne, hdig, heq, hval⟩ :=
        ih (n / 10) (Nat.digitChar (n % 10) :: ds) (by omega) (by omega)
      refine ⟨front ++ [Nat.digitChar (n % 10)], by simp, ?_, by simp [heq], ?_⟩
      · intro c hc
        rcases List.mem_append.mp hc with hc | hc
        · exact hdig c hc
        · rw [List.mem_singleton.mp hc]; exact hd.1
      · rw [List.append_assoc, List.singleton_append, hval,
          parseUintDigits_digit _ hlt _ _ (by omega)]
        congr 1
        omega

/-- The decimal digits of `n` are read back as `n`. -/
theorem toDigits_value (n : Nat) (hmax : n ≤ 18446744073709551615) :
    Nat.toDigits 10 n ≠ [] ∧ (∀ c ∈ Nat.toDigits 10 n, c.isDigit = true) ∧
    parseUintDigits (Nat.toDigits 10 n) 0 = Except.ok n := by
  obtain ⟨front, hne, hdig, heq, hval⟩ := toDigitsCore_value (n + 1) n [] (by omega) hmax
  unfold Nat.toDigits
  rw [heq]
  simp only [List.append_nil] at hval ⊢
  exact ⟨hne, hdig, by rw [hval]; rfl⟩

/-- Nothing is dropped from a list whose head fails the test. -/
theorem dropWhile_of_head {α : Type} (p : α → Bool) (l : List α)
    (h : ∀ a, l.head? = some a → p a = false) : l.dropWhile p = l := by
  cases l with
  | nil => rfl
  | cons a t => simp [List.dropWhile, h a rfl]

/-- A text without white space is its own trimming. -/
theorem TrimSpace_of_no_space (l : List Char) (h : ∀ c ∈ l, isSpace c = false) :
    TrimSpace l = l := by
  unfold TrimSpace
  rw [dropWhile_of_head isSpace l (fun a ha => h a (List.mem_of_mem_head? ha))]
  rw [dropWhile_of_head isSpace l.reverse (fun a ha =>
    h a (List.mem_reverse.mp (List.mem_of_mem_head? ha)))]
  exact List.reverse_reverse l

/-- `ParseInt` on an unsigned run of digits within the range. -/
theorem ParseInt_digits (l : List Char) (n : Nat) (hne : l ≠ [])
    (hdig : ∀ c ∈ l, c.isDigit = true) (hval : parseUintDigits l 0 = Except.ok n)
    (hfit : n < 9223372036854775808) : ParseInt l = Except.ok (n : Int) := by
  cases l with
  | nil => exact absurd rfl hne
  | cons c cs =>
    have hc := hdig c (List.mem_cons_self _ _)
    have hplus : c ≠ '+' := by intro h; rw [h] at hc; exact absurd hc (by decide)
    have hminus : c ≠ '-' := by intro h; rw [h] at hc; exact absurd hc (by decide)
    unfold ParseInt
    simp only [hplus, hminus, or_self, if_false, List.isEmpty_cons, Bool.false_eq_true, hval]
    rw [if_neg (by omega)]

/-- `ParseInt` on a run of digits preceded by a minus sign. -/
theorem ParseInt_minus_digits (l : List Char) (n : Nat) (hne : l ≠ [])
    (hval : parseUintDigits l 0 = Except.ok n)
    (hfit : n ≤ 9223372036854775808) : ParseInt ('-' :: l) = Except.ok (-(n : Int)) := by
  unfold ParseInt
  have he : l.isEmpty = false := by cases l with
    | nil => exact absurd rfl hne
    | cons _ _ => rfl
  simp only [or_true, if_true, he, Bool.false_eq_true, if_false, hval]
  rw [if_neg (by omega)]

/-- The decimal rendering of an integer of the `int64` range is read back as that
integer: `copyValueInt` inverts Go's `%d`. -/
theorem copyValueInt_fmtInt (quote : String → String) (n : Int)
    (h1 : -9223372036854775808 ≤ n) (h2 : n < 9223372036854775808) :
    copyValueInt quote (fmtInt n) = Except.ok n := by
  cases n with
  | ofNat m =>
    have hfit : m < 9223372036854775808 := by
      have : (m : Int) < 9223372036854775808 := h2
      omega
    obtain ⟨hne, hdig, hval⟩ := toDigits_value m (by omega)
    have hdata : (fmtInt (Int.ofNat m)).data = Nat.toDigits 10 m := rfl
    unfold copyValueInt
    rw [hdata]
    have he : (Nat.toDigits 10 m).isEmpty = false := by
      cases hl : Nat.toDigits 10 m with
      | nil => exact absurd hl hne
      | cons _ _ => rfl
    rw [he, TrimSpace_of_no_space _ (fun c hc => isDigit_not_space c (hdig c hc)),
      ParseInt_digits _ m hne hdig hval hfit]
    rfl
  | negSucc m =>
    have hfit : m + 1 ≤ 9223372036854775808 := by
      have : -9223372036854775808 ≤ Int.negSucc m := h1
      rw [Int.negSucc_eq] at this
      omega
    obtain ⟨hne, hdig, hval⟩ := toDigits_value (m + 1) (by omega)
    have hdata : (fmtInt (Int.negSucc m)).data = '-' :: Nat.toDigits 10 (m + 1) := rfl
    unfold copyValueInt
    rw [hdata]
    have hsp : ∀ c ∈ '-' :: Nat.toDigits 10 (m + 1), isSpace c = false := by
      intro c hc
      rcases List.mem_cons.mp hc with hc | hc
      · rw [hc]; decide
      · exact isDigit_not_space c (hdig c hc)
    rw [TrimSpace_of_no_space _ hsp, ParseInt_minus_digits _ (m + 1) hne hval hfit]
    simp only [List.isEmpty_cons, Bool.false_eq_true, if_false]
    rfl

/-- Decoding the attributes of a `revision` element with distinct attribute names and
an integer `number`: it succeeds, each of the three fields is the value of its
attribute, or what it was when the attribute is absent. -/
theorem unmarshalZoneRevision_spec (quote : String → String) (attrs : List (String × String)) (r : ZoneRevision)
    (hnd : (attrs.map Prod.fst).Nodup)
    (hnum : ∀ v, ("number", v) ∈ attrs → ∃ n, copyValueInt quote v = Except.ok n) :
    ∃ r1, unmarshalZoneRevision quote attrs r = Except.ok r1 ∧
      (∀ d, ("date", d) ∈ attrs → r1.Date = d) ∧
      ("date" ∉ attrs.map Prod.fst → r1.Date = r.Date) ∧
      (∀ i, ("ip", i) ∈ attrs → r1.IP = i) ∧
      ("ip" ∉ attrs.map Prod.fst → r1.IP = r.IP) ∧
      (∀ v n, ("number", v) ∈ attrs → copyValueInt quote v = Except.ok n → r1.Number = n) ∧
      ("number" ∉ attrs.map Prod.fst → r1.Number = r.Number) := by
  induction attrs generalizing r with
  | nil => exact ⟨r, rfl, by simp, by simp, by simp, by simp, by simp, by simp⟩
  | cons kv rest ih =>
    obtain ⟨k, v⟩ := kv
    simp only [List.map_cons, List.nodup_cons] at hnd
    obtain ⟨hk, hnd⟩ := hnd
    have hnum' : ∀ v, ("number", v) ∈ rest → ∃ n, copyValueInt quote v = Except.ok n :=
      fun v hv => hnum v (List.mem_cons_of_mem _ hv)
    have hkey : ∀ (x : String) (y : String), (x, y) ∈ rest → x ∈ rest.map Prod.fst :=
      fun x y hxy => List.mem_map.mpr ⟨(x, y), hxy, rfl⟩
    by_cases h1 : k = "date"
    · subst h1
      obtain ⟨r1, hr, hd, hd0, hi, hi0, hn, hn0⟩ := ih { r with Date := v } hnd hnum'
      refine ⟨r1, by simp [unmarshalZoneRevision, hr], ?_, ?_, ?_, ?_, ?_, ?_⟩
      · intro d hmem
        rcases List.mem_cons.mp hmem with heq | hmem
        · cases heq; exact hd0 hk
        · exact absurd (hkey _ _ hmem) hk
      · intro hno; simp at hno
      · intro i hmem
        rcases List.mem_cons.mp hmem with heq | hmem
        · exact absurd (Prod.mk.inj heq).1 (by decide)
        · exact hi i hmem
      · intro hno; exact hi0 (fun hm => hno (List.mem_cons_of_mem _ hm))
      · intro v1 n hmem hc
        rcases List.mem_cons.mp hmem with heq | hmem
        · exact absurd (Prod.mk.inj heq).1 (by decide)
        · exact hn v1 n hmem hc
      · intro hno; exact hn0 (fun hm => hno (List.mem_cons_of_mem _ hm))
    · by_cases h2 : k = "ip"
      · subst h2
        obtain ⟨r1, hr, hd, hd0, hi, hi0, hn, hn0⟩ := ih { r with IP := v } hnd hnum'
        refine ⟨r1, by simp [unmarshalZoneRevision, hr], ?_, ?_, ?_, ?_, ?_, ?_⟩
        · intro d hmem
          rcases List.mem_cons.mp hmem with heq | hmem
          · exact absurd (Prod.mk.inj heq).1 (by decide)
          · exact hd d hmem
        · intro hno; exact hd0 (fun hm => hno (List.mem_cons_of_mem _ hm))
        · intro i hmem
          rcases List.mem_cons.mp hmem with heq | hmem
          · cases heq; exact hi0 hk
          · exact absurd (hkey _ _ hmem) hk
        · intro hno; simp at hno
        · intro v1 n hmem hc
          rcases List.mem_cons.mp hmem with heq | hmem
          · exact absurd (Prod.mk.inj heq).1 (by decide)
          · exact hn v1 n hmem hc
        · intro hno; exact hn0 (fun hm => hno (List.mem_cons_of_mem _ hm))
      · by_cases h3 : k = "number"
        · subst h3
          obtain ⟨n0, hn0v⟩ := hnum v (List.mem_cons_self _ _)
          obtain ⟨r1, hr, hd, hd0, hi, hi0, hn, hn0⟩ := ih { r with Number := n0 } hnd hnum'
          refine ⟨r1, by simp [unmarshalZoneRevision, hn0v, hr], ?_, ?_, ?_, ?_, ?_, ?_⟩
          · intro d hmem
            rcases List.mem_cons.mp hmem with heq | hmem
            · exact absurd (Prod.mk.inj heq).1 (by decide)
            · exact hd d hmem
          · intro hno; exact hd0 (fun hm => hno (List.mem_cons_of_mem _ hm))
          · intro i hmem
            rcases List.mem_cons.mp hmem with heq | hmem
            · exact absurd (Prod.mk.inj heq).1 (by decide)
            · exact hi i hmem
          · intro hno; exact hi0 (fun hm => hno (List.mem_cons_of_mem _ hm))
          · intro v1 n hmem hc
            rcases List.mem_cons.mp hmem with heq | hmem
            · cases heq
              rw [hn0v] at hc
              cases hc
              exact hn0 hk
            · exact absurd (hkey _ _ hmem) hk
          · intro hno; simp at hno
        · obtain ⟨r1, hr, hd, hd0, hi, hi0, hn, hn0⟩ := ih r hnd hnum'
          refine ⟨r1, by simp [unmarshalZoneRevision, h1, h2, h3, hr], ?_, ?_, ?_, ?_, ?_, ?_⟩
          · intro d hmem
            rcases List.mem_cons.mp hmem with heq | hmem
            · cases heq; exact absurd rfl h1
            · exact hd d hmem
          · intro hno; exact hd0 (fun hm => hno (List.mem_cons_of_mem _ hm))
          · intro i hmem
            rcases List.mem_cons.mp hmem with heq | hmem
            · cases heq; exact absurd rfl h2
            · exact hi i hmem
          · intro hno; exact hi0 (fun hm => hno (List.mem_cons_of_mem _ hm))
          · intro v1 n hmem hc
            rcases List.mem_cons.mp hmem with heq | hmem
            · cases heq; exact absurd rfl h3
            · exact hn v1 n hmem hc
          · intro hno; exact hn0 (fun hm => hno (List.mem_cons_of_mem _ hm))

/-- Two entries with the same name in a list of distinct names are the same entry. -/
theorem value_unique_of_nodup (l : List (String × String)) (k v v1 : String)
    (hnd : (l.map Prod.fst).Nodup) (ha : (k, v) ∈ l) (hb : (k, v1) ∈ l) : v1 = v := by
  induction l with
  | nil => cases ha
  | cons kv rest ih =>
    simp only [List.map_cons, List.nodup_cons] at hnd
    rcases List.mem_cons.mp ha with ha | ha <;> rcases List.mem_cons.mp hb with hb | hb
    · rw [← ha] at hb; exact (Prod.mk.inj hb).2
    · exact absurd (List.mem_map.mpr ⟨_, hb, by rw [← ha]⟩) hnd.1
    · exact absurd (List.mem_map.mpr ⟨_, ha, by rw [← hb]⟩) hnd.1
    · exact ih hnd.2 ha hb

/-- A `revision` element that describes `r` decodes to `r`. -/
theorem unmarshalZoneRevision_describes (quote : String → String)
    (attrs : List (String × String)) (r : ZoneRevision) (h : DescribesRevision attrs r) :
    unmarshalZoneRevision quote attrs ⟨"", "", 0⟩ = Except.ok r := by
  obtain ⟨hnd, hdate, hip, hv, hlo, hhi⟩ := h
  have hparse := copyValueInt_fmtInt quote r.Number hlo hhi
  have hnum : ∀ v1, ("number", v1) ∈ attrs → ∃ n, copyValueInt quote v1 = Except.ok n := by
    intro v1 hv1
    exact ⟨r.Number, by rw [value_unique_of_nodup attrs "number" _ v1 hnd hv hv1]; exact hparse⟩
  obtain ⟨r1, hr, hd, _, hi, _, hn, _⟩ :=
    unmarshalZoneRevision_spec quote attrs ⟨"", "", 0⟩ hnd hnum
  rw [hr]
  have e1 := hd _ hdate
  have e2 := hi _ hip
  have e3 := hn _ _ hv hparse
  cases r1; cases r
  simp only at e1 e2 e3
  simp [e1, e2, e3]

/-- The content of a `data` element whose `revision` elements describe `revs`
appends exactly `revs`. -/
theorem unmarshalRevisionData_spec (quote : String → String) (children : List XmlNode) (revs0 revs : List ZoneRevision)
    (h : List.Forall₂ DescribesRevision (revisionElements children) revs) :
    unmarshalRevisionData quote children revs0 = Except.ok (revs0 ++ revs) := by
  induction children generalizing revs0 revs with
  | nil =>
    simp only [revisionElements] at h
    cases h
    simp [unmarshalRevisionData]
  | cons n rest ih =>
    cases n with
    | text d => simp only [revisionElements] at h; simp only [unmarshalRevisionData]; exact ih _ _ h
    | elem name attrs ch =>
      simp only [revisionElements] at h
      simp only [unmarshalRevisionData]
      by_cases hn : name = "revision"
      · rw [if_pos hn] at h ⊢
        cases h with
        | cons hd htl =>
          rename_i r revs1
          rw [unmarshalZoneRevision_describes quote attrs r hd]
          simp only []
          rw [ih _ _ htl]
          simp
      · rw [if_neg hn] at h ⊢
        exact ih _ _ h

/-- Items before the `data` element that are no `data` elements are skipped. -/
theorem unmarshalRevisionFields_append (quote : String → String) (pre rest : List XmlNode) (v : APIResponseZoneRevisions)
    (hpre : ∀ a ch, XmlNode.elem "data" a ch ∉ pre) :
    unmarshalRevisionFields quote (pre ++ rest) v = unmarshalRevisionFields quote rest v := by
  induction pre with
  | nil => rfl
  | cons n t ih =>
    have ht : ∀ a ch, XmlNode.elem "data" a ch ∉ t :=
      fun a ch hm => hpre a ch (List.mem_cons_of_mem _ hm)
    cases n with
    | text d => simp only [List.cons_append, unmarshalRevisionFields]; exact ih ht
    | elem name attrs ch =>
      simp only [List.cons_append, unmarshalRevisionFields]
      by_cases hn : name = "data"
      · exact absurd (hn ▸ List.mem_cons_self _ _) (hpre attrs ch)
      · rw [if_neg hn]; exact ih ht

/-- The two failures of `ParseInt` keep their own messages: a text that is no number
reads `invalid syntax`, a number beyond `int64` reads `value out of range`, also when
an overflow of 64 bits comes before a character that is no digit. -/
theorem copyValueInt_failures :
    copyValueInt quietEnv.strconvQuote "abc"
      = Except.error "strconv.ParseInt: parsing \"abc\": invalid syntax" ∧
    copyValueInt quietEnv.strconvQuote "9223372036854775808"
      = Except.error "strconv.ParseInt: parsing \"9223372036854775808\": value out of range" ∧
    copyValueInt quietEnv.strconvQuote "99999999999999999999x"
      = Except.error "strconv.ParseInt: parsing \"99999999999999999999x\": value out of range" ∧
    copyValueInt quietEnv.strconvQuote "-9223372036854775808"
      = Except.ok (-9223372036854775808) := by
  decide

/-- The document tree of a well-formed revision list decodes to the revisions it
describes. -/
theorem unmarshalRevisions_tree (quote : String → String) (root : XmlElement)
    (pre post dchildren : List XmlNode) (dattrs : List (String × String))
    (revs : List ZoneRevision)
    (hname : root.name = "response")
    (hshape : root.children = pre ++ XmlNode.elem "data" dattrs dchildren :: post)
    (hpre : ∀ a ch, XmlNode.elem "data" a ch ∉ pre)
    (hpost : ∀ a ch, XmlNode.elem "data" a ch ∉ post)
    (hrevs : List.Forall₂ DescribesRevision (revisionElements dchildren) revs) :
    unmarshalAPIResponseZoneRevisions quote root ⟨"", []⟩ = Except.ok ⟨"response", revs⟩ := by
  unfold unmarshalAPIResponseZoneRevisions
  rw [if_neg (by simp [hname]), hshape, unmarshalRevisionFields_append _ _ _ _ hpre]
  simp only [unmarshalRevisionFields, if_true]
  rw [unmarshalRevisionData_spec quote dchildren [] revs hrevs]
  simp only [List.nil_append]
  have := unmarshalRevisionFields_append quote post [] ⟨root.name, revs⟩ hpost
  rw [List.append_nil] at this
  rw [this, hname]
  rfl

/-- C10. Let a document be a well-formed revision list: its root is `response`
with one `data` element, whose `revision` elements have distinct attribute names,
among them `date`, `ip` and `number`, the last the decimal text of an integer of the
`int64` range. Then `xml.Unmarshal` of the document into `APIResponseZoneRevisions`
succeeds and yields the `Revisions` sequence of the same length, in document order,
each entry's `Date`, `IP` and `Number` being the element's `date`, `ip` and
`number`; and `GetRevisions`, when that document arrives with a status in 200..299
and an XML content type, returns that sequence and no error. Other elements and
character data around the `revision` elements are skipped. -/
theorem GetRevisions_document (env : Env) (body_resp : String) (root : XmlElement)
    (pre post dchildren : List XmlNode) (dattrs : List (String × String))
    (revs : List ZoneRevision)
    (hparse : env.xmlParse body_resp = Except.ok root)
    (hname : root.name = "response")
    (hshape : root.children = pre ++ XmlNode.elem "data" dattrs dchildren :: post)
    (hpre : ∀ a ch, XmlNode.elem "data" a ch ∉ pre)
    (hpost : ∀ a ch, XmlNode.elem "data" a ch ∉ post)
    (hrevs : List.Forall₂ DescribesRevision (revisionElements dchildren) revs) :
    (revisionsDecoder env).xml body_resp ⟨"", []⟩ = (⟨"response", revs⟩, none) ∧
    ∀ (m : DNSManager) (w : World) (status : Int) (ct : String),
      (checkAPIAuth env m w).err = none →
      env.newRequestErr "GET" (HOST ++ (getAPICmdEntry m.Service m.Zone ++ METH_REVIS)) = none →
      env.transport (buildRequest (checkAPIAuth env m w).m "GET" requestType.REQUEST_CT_TEXT
        (getAPICmdEntry m.Service m.Zone ++ METH_REVIS) Body.nil false)
        = Outcome.response status ct body_resp →
      200 ≤ status → status ≤ 299 →
      stringsIndex ct CONTENT_TYPE_JSON < 0 → 0 ≤ stringsIndex ct CONTENT_TYPE_XML →
      (GetRevisions env m w).err = none ∧ (GetRevisions env m w).val = revs := by
  have hdec : (revisionsDecoder env).xml body_resp ⟨"", []⟩ = (⟨"response", revs⟩, none) := by
    simp only [revisionsDecoder, hparse,
      unmarshalRevisions_tree env.strconvQuote root pre post dchildren dattrs revs hname hshape
        hpre hpost hrevs]
  refine ⟨hdec, ?_⟩
  intro m w status ct hauth hnew htr h1 h2 hjson hxml
  have htc : tokenCheck (checkAPIAuth env) false m w = checkAPIAuth env m w := by
    simp [tokenCheck]
  have hinto : decodeInto (revisionsDecoder env) status ct body_resp ⟨"", []⟩
      = (⟨"response", revs⟩, none) := by
    unfold decodeInto
    rw [if_neg (by omega), if_pos (by omega)]
    exact hdec
  have hsend : sendRequest env (revisionsDecoder env) m "GET" requestType.REQUEST_CT_TEXT
      (getAPICmdEntry m.Service m.Zone ++ METH_REVIS) Body.nil (some ⟨"", []⟩) false w
      = ⟨(checkAPIAuth env m w).m,
         (checkAPIAuth env m w).w.record (Event.request (buildRequest (checkAPIAuth env m w).m
           "GET" requestType.REQUEST_CT_TEXT (getAPICmdEntry m.Service m.Zone ++ METH_REVIS)
           Body.nil false)),
         some ⟨"response", revs⟩, some ⟨status, ct⟩, none⟩ := by
    unfold sendRequest sendRequestWith
    rw [htc, hauth]
    simp only []
    rw [hnew]
    simp only []
    rw [htr]
    simp only []
    rw [if_neg (by omega), hinto]
  unfold GetRevisions
  simp [hsend]

/-- C10 at the document of `TestGetRevisionsParse`: decoded on its own and through
`GetRevisions`, it gives the numbers 3, 2, 1 in document order, the last with the
`ip` text `no data`. -/
theorem GetRevisions_document_witness :
    (revisionsDecoder revisionsEnv).xml testRevisionsText ⟨"", []⟩ =
      (⟨"response",
        [⟨"2013-04-01 18:36:57", "192.168.125.12", 3⟩,
         ⟨"2013-04-01 18:36:57", "192.168.125.12", 2⟩,
         ⟨"2013-04-01 18:36:56", "no data", 1⟩]⟩, none) ∧
    (GetRevisions revisionsEnv tokenManager emptyWorld).err = none ∧
    (GetRevisions revisionsEnv tokenManager emptyWorld).val =
      [⟨"2013-04-01 18:36:57", "192.168.125.12", 3⟩,
       ⟨"2013-04-01 18:36:57", "192.168.125.12", 2⟩,
       ⟨"2013-04-01 18:36:56", "no data", 1⟩] :=
  have h := GetRevisions_document revisionsEnv testRevisionsText testRevisionsDoc
    [XmlNode.text "\n\t", XmlNode.elem "status" [] [XmlNode.text "success"], XmlNode.text "\n\t"]
    [XmlNode.text "\n\t"]
    [XmlNode.elem "revision"
       [("date", "2013-04-01 18:36:57"), ("ip", "192.168.125.12"), ("number", "3")] [],
     XmlNode.text "\n\t",
     XmlNode.elem "revision"
       [("date", "2013-04-01 18:36:57"), ("ip", "192.168.125.12"), ("number", "2")] [],
     XmlNode.text "\n\t",
     XmlNode.elem "revision"
       [("date", "2013-04-01 18:36:56"), ("ip", "no data"), ("number", "1")] [],
     XmlNode.text "\n\t"]
    []
    [⟨"2013-04-01 18:36:57", "192.168.125.12", 3⟩,
     ⟨"2013-04-01 18:36:57", "192.168.125.12", 2⟩,
     ⟨"2013-04-01 18:36:56", "no data", 1⟩]
    (by simp [revisionsEnv]) rfl rfl (by intro a ch h; simp at h) (by intro a ch h; simp at h)
    (List.Forall₂.cons ⟨by decide, by simp, by simp, by decide, by decide, by decide⟩
      (List.Forall₂.cons ⟨by decide, by simp, by simp, by decide, by decide, by decide⟩
        (List.Forall₂.cons ⟨by decide, by simp, by simp, by decide, by decide, by decide⟩
          List.Forall₂.nil)))
  ⟨h.1, h.2 tokenManager emptyWorld 200 "text/xml; charset=utf-8" (by decide) (by decide)
    rfl (by decide) (by decide) (by decide) (by decide)⟩

/-! ## What `Login` persists (C11) -/

/-- What `SaveToJSONFile` leaves in the files depends on the files before it only. -/
theorem SaveToJSONFile_files (env : Env) (fileName : String) (source : APIResponseAuth)
    (w1 w2 : World) (h : w1.files = w2.files) :
    (SaveToJSONFile env fileName source w1).1.files
      = (SaveToJSONFile env fileName source w2).1.files := by
  unfold SaveToJSONFile
  split
  · exact h
  · split
    · simp [World.setFile, h]
    · split <;> simp [World.setFile, h]

/-- A successful `SaveToJSONFile` leaves the marshalled text in the named file. -/
theorem SaveToJSONFile_written (env : Env) (fileName b : String) (source : APIResponseAuth)
    (w : World) (hc : env.createErr fileName = none)
    (hm : env.jsonMarshalIndent source = Except.ok b) (hw : env.writeErr fileName b = none) :
    (SaveToJSONFile env fileName source w).1.files fileName = some (Except.ok b) := by
  unfold SaveToJSONFile
  rw [hc]
  simp only []
  rw [hm]
  simp only []
  rw [hw]
  simp [World.setFile]

/-- The request of `Login` leaves the files as they were. -/
theorem loginSend_files (env : Env) (m : DNSManager) (grantType scope : String) (w : World) :
    (loginSend env m grantType scope w).w.files = w.files := by
  have hf := (sendRequestWith_files (fun m0 w0 => ⟨m0, w0, none⟩) env env.auth.structTarget
    (loginStart env m grantType scope w) "POST" requestType.REQUEST_CT_FORM AUTH_ENTRY
    (Body.form (loginFields (loginStart env m grantType scope w) (effectiveGrantType grantType)
      (effectiveScope scope)))
    (some (loginStart env m grantType scope w).APIAuth) true
    (NewAPIResponseAuth env (loginEntered w grantType scope)).2).1
  rw [tokenCheck_auth] at hf
  rw [show (loginSend env m grantType scope w).w.files = _ from hf]
  simp [NewAPIResponseAuth, timeNow, loginEntered, World.record]

/-- C11 as stated fails. `Login("", "")` succeeds against a server that answers with
the access token `T`, lifetime 3600 and refresh token `R`; the manager's `GrantType`
and `Scope` are `password` and `.*`, but the text written to the cache file
`~svc-example.ru.json` is the Token State alone (`access_token`, `expires_in`,
`refresh_token`, `token_time`) and contains neither `password` nor `.*`. A login
with the grant type `client_credentials` and another scope writes the same text. -/
theorem Login_persisted_state_lacks_defaults :
    (Login loginEnv tokenManager "" "" emptyWorld).err = none ∧
    (Login loginEnv tokenManager "" "" emptyWorld).m.GrantType = "password" ∧
    (Login loginEnv tokenManager "" "" emptyWorld).m.Scope = ".*" ∧
    (Login loginEnv tokenManager "" "" emptyWorld).w.files "~svc-example.ru.json"
      = some (Except.ok
          "\x7b\n\t\"access_token\": \"T\",\n\t\"expires_in\": 3600,\n\t\"refresh_token\": \"R\",\n\t\"token_time\": 0\n\x7d") ∧
    stringsIndex
      "\x7b\n\t\"access_token\": \"T\",\n\t\"expires_in\": 3600,\n\t\"refresh_token\": \"R\",\n\t\"token_time\": 0\n\x7d"
      "password" < 0 ∧
    stringsIndex
      "\x7b\n\t\"access_token\": \"T\",\n\t\"expires_in\": 3600,\n\t\"refresh_token\": \"R\",\n\t\"token_time\": 0\n\x7d"
      ".*" < 0 ∧
    (Login loginEnv tokenManager "client_credentials" "GET:/dns-master/.+" emptyWorld).w.files
        "~svc-example.ru.json"
      = (Login loginEnv tokenManager "" "" emptyWorld).w.files "~svc-example.ru.json" := by
  decide

/-- C11, amended. After a successful `Login`, the effective grant type and scope
(`password` and `.*` for empty inputs) are stored in the manager's `GrantType` and
`Scope`, in memory. What `Login` persists is the result of `SaveToJSONFile` on the
manager's Token State `m.APIAuth` (access token, lifetime, refresh token, issuance
time) under the query file name of the manager's service and zone: the files after
the call are those left by that save on the files before the call, and when the
file can be created and written, its content is the JSON text of that Token State.
Grant type and scope are no part of the persisted value. -/
theorem Login_persists_token_state (env : Env) (m : DNSManager) (grantType scope : String)
    (w : World) (h : (Login env m grantType scope w).err = none) :
    (Login env m grantType scope w).m.GrantType
      = (if grantType = "" then "password" else grantType) ∧
    (Login env m grantType scope w).m.Scope = (if scope = "" then ".*" else scope) ∧
    (Login env m grantType scope w).w.files
      = (SaveToJSONFile env (getQueryFileName m) (Login env m grantType scope w).m.APIAuth
          w).1.files ∧
    (∀ b : String, env.createErr (getQueryFileName m) = none →
      env.jsonMarshalIndent (Login env m grantType scope w).m.APIAuth = Except.ok b →
      env.writeErr (getQueryFileName m) b = none →
      (Login env m grantType scope w).w.files (getQueryFileName m) = some (Except.ok b)) := by
  have hman := Login_manager env m grantType scope w
  have hname : getQueryFileName (Login env m grantType scope w).m = getQueryFileName m := by
    rw [hman]; simp [getQueryFileName, loginStart]
  have hsend : (loginSend env m grantType scope w).err = none := by
    unfold Login at h
    split at h
    · simp at h
    · assumption
  have hm : (Login env m grantType scope w).m = loginStored (loginSend env m grantType scope w) := by
    unfold Login; split <;> rfl
  have hfiles : (Login env m grantType scope w).w.files
      = (SaveToJSONFile env (getQueryFileName m) (Login env m grantType scope w).m.APIAuth
          w).1.files := by
    rw [← hname, hm]
    have hw : (Login env m grantType scope w).w
        = (SaveToJSONFile env (getQueryFileName (loginStored (loginSend env m grantType scope w)))
            (loginStored (loginSend env m grantType scope w)).APIAuth
            (loginSend env m grantType scope w).w).1 := by
      unfold Login
      split
      · rename_i err herr; rw [hsend] at herr; cases herr
      · rfl
    rw [hw]
    exact SaveToJSONFile_files _ _ _ _ _ (loginSend_files env m grantType scope w)
  refine ⟨?_, ?_, hfiles, ?_⟩
  · rw [hman]; simp [loginStart, effectiveGrantType]
  · rw [hman]; simp [loginStart, effectiveScope]
  · intro b hc hmar hwr
    rw [hfiles]
    exact SaveToJSONFile_written env _ b _ w hc hmar hwr

/-- C11, amended, at a concrete input: `Login("", "")` on `tokenManager` stores
`password` and `.*` in the manager and writes the Token State `T`, 3600, `R`,
stamped `0`, to the cache file. -/
theorem Login_persists_token_state_witness :
    (Login loginEnv tokenManager "" "" emptyWorld).m.GrantType = "password" ∧
    (Login loginEnv tokenManager "" "" emptyWorld).m.Scope = ".*" ∧
    (Login loginEnv tokenManager "" "" emptyWorld).w.files (getQueryFileName tokenManager)
      = some (Except.ok (tokenStateJSON ⟨"T", 3600, "R", 0⟩)) :=
  ⟨(Login_persists_token_state loginEnv tokenManager "" "" emptyWorld (by decide)).1,
   (Login_persists_token_state loginEnv tokenManager "" "" emptyWorld (by decide)).2.1,
   (Login_persists_token_state loginEnv tokenManager "" "" emptyWorld (by decide)).2.2.2
     (tokenStateJSON ⟨"T", 3600, "R", 0⟩) (by decide) (by decide) (by decide)⟩

end Nicdns
